import Mathlib

/-!
Verification of the seatwatch aggregation engine (seats_watch.py).

The offer records handled by the program are JSON-like Python values; they
are embedded as the inductive type JVal below.  Python dictionaries are
association lists of string keys (unique keys, insertion ordered), machine
integers are Int (Python ints are unbounded), and fallible operations
return Option.  Every definition is translated from the source file; the
few definitions written from the specification's words instead are named
with a spec prefix and documented as such.
-/

/-- A Python/JSON value as manipulated by seats_watch.py. -/
inductive JVal where
  | null
  | bool (b : Bool)
  | num (n : Int)
  | str (s : String)
  | arr (items : List JVal)
  | obj (fields : List (String × JVal))

/-- Key lookup in a dict value; none when the receiver is not a dict or the
key is absent (Python dict.get). -/
def jGet (v : JVal) (k : String) : Option JVal :=
  match v with
  | .obj fields => go fields
  | _ => none
where go : List (String × JVal) → Option JVal
  | [] => none
  | (k₀, v₀) :: rest => if k₀ = k then some v₀ else go rest

/-- Python truthiness of a value. -/
def jtruthy : JVal → Bool
  | .null => false
  | .bool b => b
  | .num n => n != 0
  | .str s => s != ""
  | .arr items => !items.isEmpty
  | .obj fields => !fields.isEmpty

/-- Is the value Python None. -/
def isNull : JVal → Bool
  | .null => true
  | _ => false

/-- The Python idiom d.get(k) or default, applied to an optional value:
absent or falsy values are replaced by the default. -/
def pyOr (o : Option JVal) (d : JVal) : JVal :=
  match o with
  | some v => if jtruthy v then v else d
  | none => d

/-- Python int(v) for the value kinds that occur: exact on ints, 0/1 on
bools, decimal parse on strings (exotic string formats are out of scope),
failure on everything else. -/
def pyInt? : JVal → Option Int
  | .num n => some n
  | .bool b => some (if b then 1 else 0)
  | .str s => s.toInt?
  | _ => none

mutual

/-- Python repr of a value (string escaping inside quotes is not modelled;
no claim observes the rendered text of a container). -/
def pyRepr : JVal → String
  | .null => "None"
  | .bool b => if b then "True" else "False"
  | .num n => toString n
  | .str s => "'" ++ s ++ "'"
  | .arr items => "[" ++ pyReprItems items ++ "]"
  | .obj fields => "\x7b" ++ pyReprFields fields ++ "\x7d"

def pyReprItems : List JVal → String
  | [] => ""
  | [v] => pyRepr v
  | v :: rest => pyRepr v ++ ", " ++ pyReprItems rest

def pyReprFields : List (String × JVal) → String
  | [] => ""
  | [(k, v)] => "'" ++ k ++ "': " ++ pyRepr v
  | (k, v) :: rest => "'" ++ k ++ "': " ++ pyRepr v ++ ", " ++ pyReprFields rest

end

/-- Python str(v): identity on strings, repr otherwise. -/
def pyStr : JVal → String
  | .str s => s
  | v => pyRepr v

mutual

/-- compute_tightness walk: collect every int-convertible value stored
under a numberOfBookableSeats key anywhere in the nested record
(seats_watch.py lines 39-54). -/
def collectSeats : JVal → List Int
  | .obj fields => collectSeatsFields fields
  | .arr items => collectSeatsItems items
  | _ => []

def collectSeatsFields : List (String × JVal) → List Int
  | [] => []
  | (k, v) :: rest =>
    (if k = "numberOfBookableSeats" then
       if isNull v then [] else (pyInt? v).toList
     else []) ++ collectSeats v ++ collectSeatsFields rest

def collectSeatsItems : List JVal → List Int
  | [] => []
  | v :: rest => collectSeats v ++ collectSeatsItems rest

end

/-- Result record of compute_tightness. -/
structure Tightness where
  min_bookable : Option Int
  score : Int
  label : String
deriving Repr, DecidableEq

/-- compute_tightness (seats_watch.py lines 29-77). -/
def compute_tightness (offer : JVal) : Tightness :=
  match collectSeats offer with
  | [] => ⟨none, 0, "NO DATA"⟩
  | v :: vs =>
    let raw_min := vs.foldl min v
    let min_bookable := if raw_min ≥ 9 then 9 else raw_min
    let score : Int :=
      if 1 ≤ min_bookable ∧ min_bookable ≤ 8 then 100 - (min_bookable - 1) * 12
      else if min_bookable = 9 then 10
      else 0
    let label : String :=
      if min_bookable ≤ 3 then "VERY TIGHT"
      else if 4 ≤ min_bookable ∧ min_bookable ≤ 6 then "TIGHT"
      else if 7 ≤ min_bookable ∧ min_bookable ≤ 8 then "MODERATE"
      else "UNKNOWN/LOOSE"
    ⟨some min_bookable, score, label⟩

/-- Modelled from the spec: the tightness triple the specification defines,
as a function of the multiset of numberOfBookableSeats occurrences found in
the record.  No occurrence means NO DATA; otherwise the minimum is clamped
to at most 9 and score and label follow the published tables. -/
def specTightness (values : List Int) : Tightness :=
  match values.min? with
  | none => ⟨none, 0, "NO DATA"⟩
  | some raw_min =>
    let mb := min raw_min 9
    ⟨some mb,
     if 1 ≤ mb ∧ mb ≤ 8 then 100 - (mb - 1) * 12 else if mb = 9 then 10 else 0,
     if mb ≤ 3 then "VERY TIGHT"
     else if 4 ≤ mb ∧ mb ≤ 6 then "TIGHT"
     else if 7 ≤ mb ∧ mb ≤ 8 then "MODERATE"
     else "UNKNOWN/LOOSE"⟩

/-- C1: for every offer record, compute_tightness returns exactly the
triple the spec defines over the numberOfBookableSeats occurrences found
anywhere in the nested record: NO DATA when there are none, otherwise the
minimum clamped to at most 9 with the spec's score formula and label
ranges. -/
theorem C1_compute_tightness_matches_spec (offer : JVal) :
    compute_tightness offer = specTightness (collectSeats offer) := by
  unfold compute_tightness specTightness
  cases h : collectSeats offer with
  | nil => rfl
  | cons v vs =>
    simp only [List.min?_cons']
    have hmin : (if vs.foldl min v ≥ 9 then (9 : Int) else vs.foldl min v)
        = min (vs.foldl min v) 9 := by
      rcases le_or_lt 9 (vs.foldl min v) with h9 | h9
      · simp [min_eq_right h9, h9]
      · have : ¬ (vs.foldl min v ≥ 9) := not_le.mpr h9
        simp [this, min_eq_left (le_of_lt h9)]
    rw [hmin]

/-- First-match association-list lookup (model of Python dict access). -/
def alookup {α β : Type} [DecidableEq α] (k : α) : List (α × β) → Option β
  | [] => none
  | (k₀, v) :: rest => if k₀ = k then some v else alookup k rest

/-- Replace the value stored at the first occurrence of a key, keeping its
position (Python dict assignment to an existing key). -/
def aset {α β : Type} [DecidableEq α] (k : α) (v : β) : List (α × β) → List (α × β)
  | [] => []
  | (k₀, v₀) :: rest => if k₀ = k then (k₀, v) :: rest else (k₀, v₀) :: aset k v rest

/-- Python dict item assignment: overwrite in place when the key exists,
append otherwise. -/
def dictSet (m : List (String × String)) (k v : String) : List (String × String) :=
  if (alookup k m).isSome then aset k v m else m ++ [(k, v)]

/-- Python dict.update: assign every item of the new mapping in turn. -/
def dictUpdate (old new : List (String × String)) : List (String × String) :=
  new.foldl (fun acc kv => dictSet acc kv.1 kv.2) old

/-- _carriers_dictionary (seats_watch.py lines 362-373): extract the
carrier-code to display-name dictionary from a search payload. -/
def _carriers_dictionary (payload : JVal) : List (String × String) :=
  let dictionaries := pyOr (jGet payload "dictionaries") (.obj [])
  match dictionaries with
  | .obj _ =>
    let carriers := pyOr (jGet dictionaries "carriers") (.obj [])
    match carriers with
    | .obj cfields =>
      cfields.foldl (fun out kv =>
        if kv.1 != "" && jtruthy kv.2 then dictSet out kv.1 (pyStr kv.2) else out) []
    | _ => []
  | _ => []

/-- Loop body of _is_direct_offer over the itinerary list: every itinerary
must be a dict whose segments value is a list of length exactly one. -/
def directItinsOk : List JVal → Bool
  | [] => true
  | it :: rest =>
    match it with
    | .obj _ =>
      match pyOr (jGet it "segments") (.arr []) with
      | .arr segs => segs.length == 1 && directItinsOk rest
      | _ => false
    | _ => false

/-- _is_direct_offer (seats_watch.py lines 309-319). -/
def _is_direct_offer (offer : JVal) : Bool :=
  match pyOr (jGet offer "itineraries") (.arr []) with
  | .arr its => !its.isEmpty && directItinsOk its
  | _ => false

/-- _offer_operating_carrier_code (seats_watch.py lines 341-359): the first
segment's operating carrier code when present, else its own carrier code. -/
def _offer_operating_carrier_code (offer : JVal) : Option String :=
  match pyOr (jGet offer "itineraries") (.arr []) with
  | .arr (first_it :: _) =>
    match first_it with
    | .obj _ =>
      match pyOr (jGet first_it "segments") (.arr []) with
      | .arr (seg0 :: _) =>
        match seg0 with
        | .obj _ =>
          let fallback : Option String :=
            match jGet seg0 "carrierCode" with
            | some cc => if jtruthy cc then some (pyStr cc) else none
            | none => none
          match jGet seg0 "operating" with
          | some operating =>
            match operating with
            | .obj _ =>
              match jGet operating "carrierCode" with
              | some cc => if jtruthy cc then some (pyStr cc) else fallback
              | none => fallback
            | _ => fallback
          | none => fallback
        | _ => none
      | _ => none
    | _ => none
  | _ => none

/-- Inner loop of _offer_cabins over fareDetailsBySegment entries. -/
def fdCabins : List JVal → List String
  | [] => []
  | fd :: rest =>
    (match fd with
     | .obj _ =>
       match jGet fd "cabin" with
       | some c => if isNull c then [] else [pyStr c]
       | none => []
     | _ => []) ++ fdCabins rest

/-- Outer loop of _offer_cabins over travelerPricings entries. -/
def tpCabins : List JVal → List String
  | [] => []
  | tp :: rest =>
    (match tp with
     | .obj _ =>
       match pyOr (jGet tp "fareDetailsBySegment") (.arr []) with
       | .arr fds => fdCabins fds
       | _ => []
     | _ => []) ++ tpCabins rest

/-- _offer_cabins (seats_watch.py lines 471-489).  The Python set is
modelled as the list of added labels: only membership and emptiness are
ever observed. -/
def _offer_cabins (offer : JVal) : List String :=
  match pyOr (jGet offer "travelerPricings") (.arr []) with
  | .arr tps => tpCabins tps
  | _ => []

/-- _departure_time_hhmm (seats_watch.py lines 379-383). -/
def _departure_time_hhmm (departure_at : String) : String :=
  if departure_at.toList.contains 'T' then
    let t := String.mk ((departure_at.toList.dropWhile (fun c => c ≠ 'T')).tail)
    if t.length ≥ 5 then t.take 5 else t
  else departure_at

/-- The data the aggregation loop extracts from an offer it accepts
(seats_watch.py lines 542-603). -/
structure Accepted where
  operatingCode : String
  flightId : String
  departureAt : String
  seatsInt : Option Int
deriving Repr, DecidableEq

/-- The per_flight dictionary key of an accepted offer (line 603). -/
def keyOf (a : Accepted) : String × String :=
  (a.operatingCode, a.flightId ++ "@" ++ a.departureAt)

/-- The per-offer acceptance pipeline of the aggregation loop
(seats_watch.py lines 542-603): each continue in the source is a none
here, in source order. -/
def classifyOffer (cabin : String) (offer : JVal) : Option Accepted :=
  match offer with
  | .obj _ =>
    match pyOr (jGet offer "itineraries") (.arr []) with
    | .arr (first_it :: _) =>
      match first_it with
      | .obj _ =>
        match pyOr (jGet first_it "segments") (.arr []) with
        | .arr (seg0 :: _) =>
          if _is_direct_offer offer then
            match _offer_operating_carrier_code offer with
            | some oc =>
              if oc = "" then none
              else
                match seg0 with
                | .obj _ =>
                  match jGet seg0 "number" with
                  | some fn =>
                    if isNull fn then none
                    else
                      let flight_id := oc ++ pyStr fn
                      let departure_at? : Option JVal :=
                        match jGet seg0 "departure" with
                        | some dep =>
                          match dep with
                          | .obj _ => jGet dep "at"
                          | _ => none
                        | none => none
                      match departure_at? with
                      | some da =>
                        if jtruthy da then
                          let offer_cabins := _offer_cabins offer
                          if offer_cabins ≠ [] ∧ cabin ∉ offer_cabins then none
                          else
                            let seats : Option Int :=
                              match jGet offer "numberOfBookableSeats" with
                              | some s => if isNull s then none else pyInt? s
                              | none => none
                            some ⟨oc, flight_id, pyStr da, seats⟩
                        else none
                      | none => none
                  | none => none
                | _ => none
            | none => none
          else none
        | _ => none
      | _ => none
    | _ => none
  | _ => none

/-- norm_cabin inside _selectable_seat_counts_from_seatmaps_payload
(seats_watch.py lines 430-432). -/
def norm_cabin (v : JVal) : String :=
  let s := ((pyStr v).trim.toUpper).replace " " "_"
  if s = "" then "UNKNOWN" else s

/-- One travelerPricing entry matches traveler "1" with an AVAILABLE
status (seats_watch.py lines 440-446). -/
def seatAvailEntryOk (entry : JVal) : Bool :=
  match entry with
  | .obj _ =>
    pyStr ((jGet entry "travelerId").getD .null) == "1" &&
    (pyStr ((jGet entry "seatAvailabilityStatus").getD (.str ""))).toUpper == "AVAILABLE"
  | _ => false

/-- traveler_has_available (seats_watch.py lines 434-447): a lone dict is
wrapped in a list; non-lists never match. -/
def traveler_has_available (tp : JVal) : Bool :=
  match tp with
  | .obj _ => seatAvailEntryOk tp
  | .arr entries => entries.any seatAvailEntryOk
  | _ => false

mutual

/-- Walk of _selectable_seat_counts_from_seatmaps_payload (seats_watch.py
lines 449-465), carrying the enclosing cabin context; instead of mutating
counters it emits the cabin label of every counted seat, in visit order.
The counts dict is recovered by counting occurrences. -/
def smWalk : JVal → Option String → List String
  | .obj fields, cabin_ctx =>
    let cabin : Option String :=
      match jGet (.obj fields) "cabin" with
      | some c => if isNull c then cabin_ctx else some (norm_cabin c)
      | none => cabin_ctx
    (match jGet (.obj fields) "travelerPricing" with
     | some tpv =>
       if traveler_has_available tpv then
         [match cabin with
          | some c =>
            if c ≠ "" then c
            else norm_cabin (pyOr (jGet (.obj fields) "cabinType") (.str "UNKNOWN"))
          | none => norm_cabin (pyOr (jGet (.obj fields) "cabinType") (.str "UNKNOWN"))]
       else []
     | none => []) ++ smWalkFields fields cabin
  | .arr items, cabin_ctx => smWalkItems items cabin_ctx
  | _, _ => []

def smWalkFields : List (String × JVal) → Option String → List String
  | [], _ => []
  | (_, v) :: rest, cabin => smWalk v cabin ++ smWalkFields rest cabin

def smWalkItems : List JVal → Option String → List String
  | [], _ => []
  | v :: rest, cabin_ctx => smWalk v cabin_ctx ++ smWalkItems rest cabin_ctx

end

/-- _selectable_seat_counts_from_seatmaps_payload for traveler "1"
(seats_watch.py lines 426-468), as the list of counted cabin labels;
selectable_by_cabin.get(c, 0) is the count of c in this list and
total_selectable its length. -/
def selectableOccurrences (seatmaps_payload : JVal) : List String :=
  match jGet seatmaps_payload "data" with
  | some d => smWalk d none
  | none => []

/-- One cached seatmap result: the counted cabin labels, the status string
and the recorded error text (seats_watch.py lines 667-679). -/
structure SeatEntry where
  occurrences : List String
  status : String
  err : Option String
deriving Repr, DecidableEq

/-- A flight row of the aggregator (seats_watch.py lines 606-626).  Fields
the Python dict only gains later (seatmapStatus, seatmapError and the four
selectable counts) are Option-wrapped, none meaning the key is absent. -/
structure Row where
  date : Int
  airlineCode : String
  airline : String
  flight : String
  departureAt : String
  departureTime : String
  economyMax : Option Int
  premiumEconomyMax : Option Int
  businessMax : Option Int
  firstMax : Option Int
  economySeen : Bool
  premiumEconomySeen : Bool
  businessSeen : Bool
  firstSeen : Bool
  seatmapSeen : Bool
  tightnessSeen : Bool
  tightnessMinBookable : Option Int
  tightnessScore : Option Int
  tightnessLabel : Option String
  seatmapStatus : Option String
  seatmapError : Option (Option String)
  selectableEconomy : Option (Option Int)
  selectablePremiumEconomy : Option (Option Int)
  selectableBusiness : Option (Option Int)
  selectableFirst : Option (Option Int)
deriving Repr, DecidableEq

/-- The two feature switches of the aggregation call. -/
structure Opts where
  include_tightness : Bool
  include_seatmaps : Bool
deriving Repr, DecidableEq

/-- Per-day mutable state of the aggregation loop (seats_watch.py lines
518-521).  fetchLog records, in order, the flight keys for which the
seatmap endpoint was actually called; it models the observable sequence of
client.seatmaps network calls. -/
structure DayState where
  per_flight : List ((String × String) × Row)
  carriers : List (String × String)
  seatmap_cache : List (String × SeatEntry)
  fetchLog : List String
deriving Repr, DecidableEq

/-- The empty state each day starts from. -/
def initDayState : DayState := ⟨[], [], [], []⟩

/-- Call context of the aggregation loop: the seatmap collaborator and the
feature switches, plus the day being processed (stored into rows). -/
structure Ctx where
  fetch : JVal → Except String JVal
  opts : Opts
  day : Int

/-- The fresh row created on first sight of a flight key (seats_watch.py
lines 606-627). -/
def freshRow (day : Int) (carriers : List (String × String)) (a : Accepted) : Row :=
  { date := day
    airlineCode := a.operatingCode
    airline := (alookup a.operatingCode carriers).getD a.operatingCode
    flight := a.flightId
    departureAt := a.departureAt
    departureTime := _departure_time_hhmm a.departureAt
    economyMax := none
    premiumEconomyMax := none
    businessMax := none
    firstMax := none
    economySeen := false
    premiumEconomySeen := false
    businessSeen := false
    firstSeen := false
    seatmapSeen := false
    tightnessSeen := false
    tightnessMinBookable := none
    tightnessScore := none
    tightnessLabel := none
    seatmapStatus := none
    seatmapError := none
    selectableEconomy := none
    selectablePremiumEconomy := none
    selectableBusiness := none
    selectableFirst := none }

/-- The row about to be updated: the stored row with its airline display
name refreshed from the day's carrier dictionary, or a fresh row
(seats_watch.py lines 604-629). -/
def preRow (st : DayState) (day : Int) (a : Accepted) : Row :=
  match alookup (keyOf a) st.per_flight with
  | some r => { r with airline := (alookup a.operatingCode st.carriers).getD a.operatingCode }
  | none => freshRow day st.carriers a

/-- The maximum update of upd (seats_watch.py lines 631-637): keep the
current value unless the new seat count is present and strictly greater,
or nothing was stored yet. -/
def updMax (cur : Option Int) (seats : Option Int) : Option Int :=
  match seats with
  | none => cur
  | some s =>
    match cur with
    | none => some s
    | some c => if s > c then some s else some c

/-- The cabin dispatch around upd (seats_watch.py lines 631-646): mark the
queried cabin seen and update its maximum; unknown cabin strings update
nothing. -/
def applyCabin (cabin : String) (seats : Option Int) (r : Row) : Row :=
  if cabin = "ECONOMY" then
    { r with economySeen := true, economyMax := updMax r.economyMax seats }
  else if cabin = "PREMIUM_ECONOMY" then
    { r with premiumEconomySeen := true, premiumEconomyMax := updMax r.premiumEconomyMax seats }
  else if cabin = "BUSINESS" then
    { r with businessSeen := true, businessMax := updMax r.businessMax seats }
  else if cabin = "FIRST" then
    { r with firstSeen := true, firstMax := updMax r.firstMax seats }
  else r

/-- The tightness update block (seats_watch.py lines 648-663). -/
def applyTightness (offer : JVal) (r : Row) : Row :=
  let t := compute_tightness offer
  match t.min_bookable with
  | some mb =>
    let replace :=
      match r.tightnessMinBookable with
      | none => true
      | some cur => decide (mb < cur)
    if replace then
      { r with tightnessMinBookable := some mb
               tightnessScore := some t.score
               tightnessLabel := some t.label
               tightnessSeen := true }
    else r
  | none =>
    if r.tightnessSeen then r
    else
      { r with tightnessSeen := true
               tightnessMinBookable := none
               tightnessScore := some 0
               tightnessLabel := some "NO DATA" }

/-- The cached value written for one seatmap fetch (seats_watch.py lines
668-673): the parsed counts with status ok, or zero counts with status
error and the exception text. -/
def seatEntryOf (fetch : JVal → Except String JVal) (offer : JVal) : SeatEntry :=
  match fetch offer with
  | .ok payload => ⟨selectableOccurrences payload, "ok", none⟩
  | .error exc => ⟨[], "error", some exc⟩

/-- The seatmap enrichment block (seats_watch.py lines 665-693): fetch at
most once per flight key, then copy the cached status, error and per-cabin
counts into the row. -/
def applySeatmap (fetch : JVal → Except String JVal) (offer : JVal) (flight_key : String)
    (cache : List (String × SeatEntry)) (log : List String) (r : Row) :
    List (String × SeatEntry) × List String × Row :=
  let cache' :=
    if (alookup flight_key cache).isSome then cache
    else cache ++ [(flight_key, seatEntryOf fetch offer)]
  let log' :=
    if (alookup flight_key cache).isSome then log
    else log ++ [flight_key]
  let entry := (alookup flight_key cache').getD ⟨[], "unknown", none⟩
  let r₁ := { r with seatmapSeen := true
                     seatmapStatus := some entry.status
                     seatmapError := some entry.err }
  let r₂ :=
    if entry.status = "ok" then
      { r₁ with selectableEconomy := some (some (entry.occurrences.count "ECONOMY" : Int))
                selectablePremiumEconomy :=
                  some (some (entry.occurrences.count "PREMIUM_ECONOMY" : Int))
                selectableBusiness := some (some (entry.occurrences.count "BUSINESS" : Int))
                selectableFirst := some (some (entry.occurrences.count "FIRST" : Int)) }
    else
      { r₁ with selectableEconomy := some none
                selectablePremiumEconomy := some none
                selectableBusiness := some none
                selectableFirst := some none }
  (cache', log', r₂)

/-- The combined row/cache/log update one accepted offer performs
(seats_watch.py lines 604-693): create or refresh the row, update the
queried cabin, then the optional tightness and seatmap blocks. -/
def offerUpdate (ctx : Ctx) (cabin : String) (st : DayState) (offer : JVal)
    (a : Accepted) : List (String × SeatEntry) × List String × Row :=
  let row0 := preRow st ctx.day a
  let row1 := applyCabin cabin a.seatsInt row0
  let row2 := if ctx.opts.include_tightness then applyTightness offer row1 else row1
  if ctx.opts.include_seatmaps then
    applySeatmap ctx.fetch offer (keyOf a).2 st.seatmap_cache st.fetchLog row2
  else (st.seatmap_cache, st.fetchLog, row2)

/-- Processing of one offer of a (day, cabin) query result (seats_watch.py
lines 542-693): classify, apply the update, and store the row back under
its key. -/
def processOffer (ctx : Ctx) (cabin : String) (st : DayState) (offer : JVal) : DayState :=
  match classifyOffer cabin offer with
  | none => st
  | some a =>
    let smr := offerUpdate ctx cabin st offer a
    let pf' :=
      if (alookup (keyOf a) st.per_flight).isSome then aset (keyOf a) smr.2.2 st.per_flight
      else st.per_flight ++ [(keyOf a, smr.2.2)]
    { st with per_flight := pf', seatmap_cache := smr.1, fetchLog := smr.2.1 }

/-- One observable step of a day's aggregation: a carrier-dictionary merge
(start of each successful cabin query, line 537) or one offer processed
under the queried cabin. -/
inductive DayStep where
  | offer (cabin : String) (o : JVal)
  | carriersUpd (d : List (String × String))

/-- Apply one step to the day state. -/
def applyStep (ctx : Ctx) (st : DayState) : DayStep → DayState
  | .carriersUpd d => { st with carriers := dictUpdate st.carriers d }
  | .offer cabin o => processOffer ctx cabin st o

/-- Run a list of steps left to right. -/
def processSteps (ctx : Ctx) : DayState → List DayStep → DayState
  | st, [] => st
  | st, s :: rest => processSteps ctx (applyStep ctx st s) rest

/-- The offer list of a search payload (seats_watch.py lines 538-540). -/
def offersOf (payload : JVal) : List JVal :=
  match pyOr (jGet payload "data") (.arr []) with
  | .arr l => l
  | _ => []

/-- Processing of one successful (day, cabin) search payload
(seats_watch.py lines 537-693): merge the carrier dictionary, then process
every offer of the payload under the queried cabin. -/
def processPayload (ctx : Ctx) (cabin : String) (st : DayState) (payload : JVal) : DayState :=
  processSteps ctx st (.carriersUpd (_carriers_dictionary payload)
    :: (offersOf payload).map (.offer cabin))

/-- The itinerary list an offer yields under the source's reading
(get itineraries, falsy or non-list meaning no itineraries). -/
def offerItineraries (offer : JVal) : List JVal :=
  match pyOr (jGet offer "itineraries") (.arr []) with
  | .arr its => its
  | _ => []

/-- The segment list of one itinerary under the source's reading. -/
def itinerarySegments (it : JVal) : List JVal :=
  match it with
  | .obj _ =>
    match pyOr (jGet it "segments") (.arr []) with
    | .arr segs => segs
    | _ => []
  | _ => []

/-- Modelled from the spec: an offer qualifies as direct when it has at
least one itinerary and every one of its itineraries has exactly one
segment. -/
def specDirectOffer (offer : JVal) : Prop :=
  offerItineraries offer ≠ [] ∧
    ∀ it ∈ offerItineraries offer, (itinerarySegments it).length = 1

instance listJValEqNilDec (l : List JVal) : Decidable (l = []) :=
  match l with
  | [] => isTrue rfl
  | _ :: _ => isFalse (by simp)

instance specDirectOffer.dec (offer : JVal) : Decidable (specDirectOffer offer) :=
  inferInstanceAs (Decidable (_ ∧ _))

theorem directItinsOk_iff (its : List JVal) :
    directItinsOk its = true ↔ ∀ it ∈ its, (itinerarySegments it).length = 1 := by
  induction its with
  | nil => simp [directItinsOk]
  | cons it rest ih =>
    cases it with
    | obj fields =>
      unfold directItinsOk
      cases h : pyOr (jGet (.obj fields) "segments") (.arr []) with
      | arr segs =>
        simp only [Bool.and_eq_true, beq_iff_eq, ih, List.mem_cons]
        constructor
        · rintro ⟨h1, h2⟩ x hx
          rcases hx with rfl | hx
          · simpa [itinerarySegments, h] using h1
          · exact h2 x hx
        · intro hall
          refine ⟨?_, fun x hx => hall x (Or.inr hx)⟩
          have := hall (.obj fields) (Or.inl rfl)
          simpa [itinerarySegments, h] using this
      | null => simp [itinerarySegments, h]
      | bool b => simp [itinerarySegments, h]
      | num n => simp [itinerarySegments, h]
      | str s => simp [itinerarySegments, h]
      | obj fs => simp [itinerarySegments, h]
    | null => simp [directItinsOk, itinerarySegments]
    | bool b => simp [directItinsOk, itinerarySegments]
    | num n => simp [directItinsOk, itinerarySegments]
    | str s => simp [directItinsOk, itinerarySegments]
    | arr l => simp [directItinsOk, itinerarySegments]

theorem is_direct_offer_iff (offer : JVal) :
    _is_direct_offer offer = true ↔ specDirectOffer offer := by
  unfold _is_direct_offer specDirectOffer offerItineraries
  cases h : pyOr (jGet offer "itineraries") (.arr []) with
  | arr its =>
    cases its with
    | nil => simp
    | cons a l => simp [directItinsOk_iff]
  | null => simp
  | bool b => simp
  | num n => simp
  | str s => simp
  | obj fs => simp

theorem classifyOffer_eq_none_of_not_direct (cabin : String) (offer : JVal)
    (h : _is_direct_offer offer = false) : classifyOffer cabin offer = none := by
  unfold classifyOffer
  split <;> try rfl
  split <;> try rfl
  split <;> try rfl
  split <;> try rfl
  rw [h]
  simp

theorem processOffer_of_classify_none (ctx : Ctx) (cabin : String) (st : DayState)
    (offer : JVal) (h : classifyOffer cabin offer = none) :
    processOffer ctx cabin st offer = st := by
  unfold processOffer
  rw [h]

/-- C2: the aggregator includes an offer only if it has at least one
itinerary and every one of its itineraries has exactly one segment: the
source's direct test decides exactly that predicate, and an offer failing
it (multi-segment itinerary, or no itineraries) leaves the day state
untouched, contributing nothing to the row set regardless of its other
fields. -/
theorem C2_direct_offers_only :
    (∀ offer, _is_direct_offer offer = true ↔ specDirectOffer offer) ∧
    (∀ ctx cabin st offer, ¬ specDirectOffer offer →
      processOffer ctx cabin st offer = st) := by
  refine ⟨is_direct_offer_iff, fun ctx cabin st offer hnd => ?_⟩
  have hdir : _is_direct_offer offer = false := by
    cases h : _is_direct_offer offer with
    | false => rfl
    | true => exact absurd ((is_direct_offer_iff offer).mp h) hnd
  exact processOffer_of_classify_none ctx cabin st offer
    (classifyOffer_eq_none_of_not_direct cabin offer hdir)

/-- A stand-in seatmap collaborator for concrete runs: the fetch always
fails. -/
def wCtx : Ctx := ⟨fun _ => .error "seatmap down", ⟨true, true⟩, 0⟩

/-- An offer whose single itinerary has two segments. -/
def twoSegOffer : JVal :=
  .obj [("itineraries", .arr [.obj [("segments", .arr [.obj [], .obj []])]]),
        ("numberOfBookableSeats", .num 4)]

theorem C2_witness :
    processOffer wCtx "ECONOMY" initDayState twoSegOffer = initDayState :=
  C2_direct_offers_only.2 wCtx "ECONOMY" initDayState twoSegOffer (by decide)

/-- Modelled from the spec: the acceptance pipeline with the
cabin-membership test removed, used to state that an offer declaring no
cabin information is accepted independently of the queried cabin. -/
def classifyAnyCabin (offer : JVal) : Option Accepted :=
  match offer with
  | .obj _ =>
    match pyOr (jGet offer "itineraries") (.arr []) with
    | .arr (first_it :: _) =>
      match first_it with
      | .obj _ =>
        match pyOr (jGet first_it "segments") (.arr []) with
        | .arr (seg0 :: _) =>
          if _is_direct_offer offer then
            match _offer_operating_carrier_code offer with
            | some oc =>
              if oc = "" then none
              else
                match seg0 with
                | .obj _ =>
                  match jGet seg0 "number" with
                  | some fn =>
                    if isNull fn then none
                    else
                      let flight_id := oc ++ pyStr fn
                      let departure_at? : Option JVal :=
                        match jGet seg0 "departure" with
                        | some dep =>
                          match dep with
                          | .obj _ => jGet dep "at"
                          | _ => none
                        | none => none
                      match departure_at? with
                      | some da =>
                        if jtruthy da then
                          let seats : Option Int :=
                            match jGet offer "numberOfBookableSeats" with
                            | some s => if isNull s then none else pyInt? s
                            | none => none
                          some ⟨oc, flight_id, pyStr da, seats⟩
                        else none
                      | none => none
                  | none => none
                | _ => none
            | none => none
          else none
        | _ => none
      | _ => none
    | _ => none
  | _ => none

theorem classifyOffer_cabin_split (cabin : String) (offer : JVal) :
    classifyOffer cabin offer =
      if _offer_cabins offer ≠ [] ∧ cabin ∉ _offer_cabins offer then none
      else classifyAnyCabin offer := by
  unfold classifyOffer classifyAnyCabin
  split <;> try simp
  all_goals try (split <;> try simp_all)
  all_goals try (split <;> try simp_all)
  all_goals try (split <;> try simp_all)
  all_goals try (split <;> try simp_all)
  all_goals try (split <;> try simp_all)
  all_goals try (split <;> try simp_all)
  all_goals try (split <;> try simp_all)
  all_goals try (split <;> try simp_all)
  all_goals try (split <;> try simp_all)
  all_goals try (split <;> try simp_all)
  all_goals try (split <;> try simp_all)

/-- C6: when processing the query for a cabin, an offer that declares a
non-empty cabin set not containing that cabin updates nothing, while an
offer declaring no cabin information at all passes the cabin-membership
test unconditionally: its acceptance is exactly the pipeline with the
cabin test removed, independent of the queried cabin. -/
theorem C6_cabin_membership :
    (∀ ctx cabin st offer, _offer_cabins offer ≠ [] → cabin ∉ _offer_cabins offer →
       processOffer ctx cabin st offer = st) ∧
    (∀ cabin offer, _offer_cabins offer = [] →
       classifyOffer cabin offer = classifyAnyCabin offer) := by
  constructor
  · intro ctx cabin st offer h1 h2
    have hclass : classifyOffer cabin offer = none := by
      rw [classifyOffer_cabin_split]
      simp [h1, h2]
    exact processOffer_of_classify_none ctx cabin st offer hclass
  · intro cabin offer h
    rw [classifyOffer_cabin_split]
    simp [h]

/-- A direct offer declaring only the BUSINESS cabin. -/
def businessOnlyOffer : JVal :=
  .obj [("itineraries", .arr [.obj [("segments", .arr [.obj
          [("carrierCode", .str "AA"),
           ("number", .str "100"),
           ("departure", .obj [("at", .str "2025-06-01T08:00:00")])]])]]),
        ("travelerPricings", .arr [.obj [("fareDetailsBySegment", .arr
          [.obj [("cabin", .str "BUSINESS")]])]]),
        ("numberOfBookableSeats", .num 5)]

theorem C6_witness :
    processOffer wCtx "ECONOMY" initDayState businessOnlyOffer = initDayState :=
  C6_cabin_membership.1 wCtx "ECONOMY" initDayState businessOnlyOffer
    (by decide) (by decide)

/-- _CABINS (seats_watch.py line 376). -/
def _CABINS : List String := ["ECONOMY", "PREMIUM_ECONOMY", "BUSINESS", "FIRST"]

/-- The maximum field of a row belonging to one of the four cabins. -/
def cabinMax (c : String) (r : Row) : Option Int :=
  if c = "ECONOMY" then r.economyMax
  else if c = "PREMIUM_ECONOMY" then r.premiumEconomyMax
  else if c = "BUSINESS" then r.businessMax
  else if c = "FIRST" then r.firstMax
  else none

/-- The seen flag of a row belonging to one of the four cabins. -/
def cabinSeen (c : String) (r : Row) : Bool :=
  if c = "ECONOMY" then r.economySeen
  else if c = "PREMIUM_ECONOMY" then r.premiumEconomySeen
  else if c = "BUSINESS" then r.businessSeen
  else if c = "FIRST" then r.firstSeen
  else false

/-- The seat count a step contributes to (cabin, key): present exactly when
the step is an offer accepted under that cabin mapping to that key. -/
def stepSeats (c : String) (key : String × String) : DayStep → Option (Option Int)
  | .offer c₀ o =>
    if c₀ = c then
      match classifyOffer c₀ o with
      | some a => if keyOf a = key then some a.seatsInt else none
      | none => none
    else none
  | .carriersUpd _ => none

/-- The seat counts (present or absent) of the accepted offers of a script
matching a cabin and flight key, in processing order. -/
def acceptedSeats (script : List DayStep) (c : String) (key : String × String) :
    List (Option Int) :=
  script.filterMap (stepSeats c key)

/-- The running maximum the aggregator computes over those seat counts. -/
def maxSeats (script : List DayStep) (c : String) (key : String × String) : Option Int :=
  (acceptedSeats script c key).foldl updMax none

/-- The flight key a step creates or updates, if any. -/
def stepKey : DayStep → Option (String × String)
  | .offer c o => (classifyOffer c o).map keyOf
  | .carriersUpd _ => none

/-- All flight keys touched by a script. -/
def acceptedKeys (script : List DayStep) : List (String × String) :=
  script.filterMap stepKey

/-- The row-set invariant of the aggregator relative to the steps processed
so far: a stored row's four cabin maxima are the running maxima of the seat
counts accepted for that cabin and key, its seen flags record whether any
offer was accepted for that cabin and key, and keys without accepted
offers have no row. -/
def aggInv (script : List DayStep) (st : DayState) : Prop :=
  ∀ key : String × String,
    (∀ row, alookup key st.per_flight = some row →
       ∀ c ∈ _CABINS,
         cabinMax c row = maxSeats script c key ∧
         cabinSeen c row = !(acceptedSeats script c key).isEmpty) ∧
    (alookup key st.per_flight = none → key ∉ acceptedKeys script)

theorem alookup_append {α β : Type} [DecidableEq α] (k : α) (l₁ l₂ : List (α × β)) :
    alookup k (l₁ ++ l₂) =
      match alookup k l₁ with
      | some v => some v
      | none => alookup k l₂ := by
  induction l₁ with
  | nil => simp [alookup]
  | cons p rest ih =>
    cases p with
    | mk k₀ v₀ =>
      by_cases h : k₀ = k <;> simp [alookup, h, ih]

theorem alookup_aset_ne {α β : Type} [DecidableEq α] {k k' : α} (v : β)
    (l : List (α × β)) (h : k' ≠ k) : alookup k' (aset k v l) = alookup k' l := by
  induction l with
  | nil => rfl
  | cons p rest ih =>
    obtain ⟨k₀, v₀⟩ := p
    by_cases h0 : k₀ = k
    · have hkne : ¬ (k = k') := fun hh => h hh.symm
      simp [aset, alookup, h0, hkne]
    · by_cases h1 : k₀ = k' <;> simp [aset, alookup, h0, h1, ih, h]

theorem alookup_aset_self {α β : Type} [DecidableEq α] (k : α) (v : β)
    (l : List (α × β)) (h : (alookup k l).isSome) :
    alookup k (aset k v l) = some v := by
  induction l with
  | nil => simp [alookup] at h
  | cons p rest ih =>
    cases p with
    | mk k₀ v₀ =>
      by_cases h0 : k₀ = k
      · simp [aset, alookup, h0]
      · simp [aset, alookup, h0] at h ⊢
        exact ih h

theorem acceptedSeats_append_one (script : List DayStep) (s : DayStep)
    (c : String) (key : String × String) :
    acceptedSeats (script ++ [s]) c key
      = acceptedSeats script c key ++ (stepSeats c key s).toList := by
  simp [acceptedSeats, List.filterMap_append]
  cases h : stepSeats c key s <;> simp [List.filterMap, h]

theorem acceptedKeys_append_one (script : List DayStep) (s : DayStep) :
    acceptedKeys (script ++ [s]) = acceptedKeys script ++ (stepKey s).toList := by
  simp [acceptedKeys, List.filterMap_append]
  cases h : stepKey s <;> simp [List.filterMap, h]

theorem acceptedSeats_nil_of_not_mem (script : List DayStep) (c : String)
    (key : String × String) (h : key ∉ acceptedKeys script) :
    acceptedSeats script c key = [] := by
  revert h
  induction script with
  | nil => intro h; rfl
  | cons s rest ih =>
    intro h
    have hsplit : stepSeats c key s = none ∧ key ∉ acceptedKeys rest := by
      cases s with
      | carriersUpd d =>
        refine ⟨rfl, ?_⟩
        simpa [acceptedKeys, List.filterMap_cons, stepKey] using h
      | offer c₀ o =>
        cases hcl : classifyOffer c₀ o with
        | none =>
          refine ⟨by simp [stepSeats, hcl], ?_⟩
          simpa [acceptedKeys, List.filterMap_cons, stepKey, hcl] using h
        | some a =>
          have h2 : ¬ key = keyOf a ∧ key ∉ acceptedKeys rest := by
            have h3 := h
            simp only [acceptedKeys, List.filterMap_cons, stepKey, hcl,
              Option.map_some', List.mem_cons, not_or] at h3
            exact h3
          have hne : ¬ (keyOf a = key) := fun hh => h2.1 hh.symm
          exact ⟨by simp [stepSeats, hcl, hne], h2.2⟩
    show List.filterMap (stepSeats c key) (s :: rest) = []
    rw [List.filterMap_cons, hsplit.1]
    exact ih hsplit.2

theorem maxSeats_ne_none_nonempty (script : List DayStep) (c : String)
    (key : String × String) (h : maxSeats script c key ≠ none) :
    acceptedSeats script c key ≠ [] := by
  intro hnil
  apply h
  simp [maxSeats, hnil]

theorem applyTightness_cabin (o : JVal) (r : Row) (c : String) :
    cabinMax c (applyTightness o r) = cabinMax c r ∧
    cabinSeen c (applyTightness o r) = cabinSeen c r := by
  constructor <;>
  · simp only [applyTightness]
    split <;> split <;> rfl

theorem applySeatmap_cabin (f : JVal → Except String JVal) (o : JVal) (k : String)
    (cache : List (String × SeatEntry)) (log : List String) (r : Row) (c : String) :
    cabinMax c (applySeatmap f o k cache log r).2.2 = cabinMax c r ∧
    cabinSeen c (applySeatmap f o k cache log r).2.2 = cabinSeen c r := by
  constructor <;>
  · simp only [applySeatmap]
    split <;> split <;> rfl

theorem offerUpdate_cabin (ctx : Ctx) (cabin : String) (st : DayState) (offer : JVal)
    (a : Accepted) (c : String) :
    cabinMax c (offerUpdate ctx cabin st offer a).2.2
      = cabinMax c (applyCabin cabin a.seatsInt (preRow st ctx.day a)) ∧
    cabinSeen c (offerUpdate ctx cabin st offer a).2.2
      = cabinSeen c (applyCabin cabin a.seatsInt (preRow st ctx.day a)) := by
  simp only [offerUpdate]
  split
  · rcases applySeatmap_cabin ctx.fetch offer (keyOf a).2 st.seatmap_cache st.fetchLog
      (if ctx.opts.include_tightness
        then applyTightness offer (applyCabin cabin a.seatsInt (preRow st ctx.day a))
        else applyCabin cabin a.seatsInt (preRow st ctx.day a)) c with ⟨h1, h2⟩
    rw [h1, h2]
    split
    · exact applyTightness_cabin offer _ c
    · exact ⟨rfl, rfl⟩
  · split
    · exact applyTightness_cabin offer _ c
    · exact ⟨rfl, rfl⟩


theorem preRow_cabin_existing (st : DayState) (day : Int) (a : Accepted) (r : Row)
    (h : alookup (keyOf a) st.per_flight = some r) (c : String) :
    cabinMax c (preRow st day a) = cabinMax c r ∧
    cabinSeen c (preRow st day a) = cabinSeen c r := by
  unfold preRow
  rw [h]
  exact ⟨rfl, rfl⟩

theorem freshRow_cabin (day : Int) (carriers : List (String × String)) (a : Accepted)
    (c : String) :
    cabinMax c (freshRow day carriers a) = none ∧
    cabinSeen c (freshRow day carriers a) = false := by
  unfold cabinMax cabinSeen freshRow
  split_ifs <;> exact ⟨rfl, rfl⟩

theorem preRow_cabin_fresh (st : DayState) (day : Int) (a : Accepted)
    (h : alookup (keyOf a) st.per_flight = none) (c : String) :
    cabinMax c (preRow st day a) = none ∧
    cabinSeen c (preRow st day a) = false := by
  unfold preRow
  rw [h]
  exact freshRow_cabin day st.carriers a c

theorem applyCabin_economyMax (c₀ : String) (seats : Option Int) (r : Row) :
    (applyCabin c₀ seats r).economyMax
      = if c₀ = "ECONOMY" then updMax r.economyMax seats else r.economyMax := by
  unfold applyCabin
  split_ifs <;> rfl

theorem applyCabin_economySeen (c₀ : String) (seats : Option Int) (r : Row) :
    (applyCabin c₀ seats r).economySeen
      = if c₀ = "ECONOMY" then true else r.economySeen := by
  unfold applyCabin
  split_ifs <;> rfl

theorem applyCabin_premiumMax (c₀ : String) (seats : Option Int) (r : Row) :
    (applyCabin c₀ seats r).premiumEconomyMax
      = if c₀ = "PREMIUM_ECONOMY" then updMax r.premiumEconomyMax seats
        else r.premiumEconomyMax := by
  unfold applyCabin
  split_ifs <;> first | rfl | simp_all

theorem applyCabin_premiumSeen (c₀ : String) (seats : Option Int) (r : Row) :
    (applyCabin c₀ seats r).premiumEconomySeen
      = if c₀ = "PREMIUM_ECONOMY" then true else r.premiumEconomySeen := by
  unfold applyCabin
  split_ifs <;> first | rfl | simp_all

theorem applyCabin_businessMax (c₀ : String) (seats : Option Int) (r : Row) :
    (applyCabin c₀ seats r).businessMax
      = if c₀ = "BUSINESS" then updMax r.businessMax seats else r.businessMax := by
  unfold applyCabin
  split_ifs <;> first | rfl | simp_all

theorem applyCabin_businessSeen (c₀ : String) (seats : Option Int) (r : Row) :
    (applyCabin c₀ seats r).businessSeen
      = if c₀ = "BUSINESS" then true else r.businessSeen := by
  unfold applyCabin
  split_ifs <;> first | rfl | simp_all

theorem applyCabin_firstMax (c₀ : String) (seats : Option Int) (r : Row) :
    (applyCabin c₀ seats r).firstMax
      = if c₀ = "FIRST" then updMax r.firstMax seats else r.firstMax := by
  unfold applyCabin
  split_ifs <;> first | rfl | simp_all

theorem applyCabin_firstSeen (c₀ : String) (seats : Option Int) (r : Row) :
    (applyCabin c₀ seats r).firstSeen
      = if c₀ = "FIRST" then true else r.firstSeen := by
  unfold applyCabin
  split_ifs <;> first | rfl | simp_all

theorem applyCabin_cabin {c : String} (hc : c ∈ _CABINS) (c₀ : String)
    (seats : Option Int) (r : Row) :
    cabinMax c (applyCabin c₀ seats r)
      = (if c₀ = c then updMax (cabinMax c r) seats else cabinMax c r) ∧
    cabinSeen c (applyCabin c₀ seats r)
      = (if c₀ = c then true else cabinSeen c r) := by
  have hE : ∀ X : Row, cabinMax "ECONOMY" X = X.economyMax := fun _ => rfl
  have hP : ∀ X : Row, cabinMax "PREMIUM_ECONOMY" X = X.premiumEconomyMax := fun _ => rfl
  have hB : ∀ X : Row, cabinMax "BUSINESS" X = X.businessMax := fun _ => rfl
  have hF : ∀ X : Row, cabinMax "FIRST" X = X.firstMax := fun _ => rfl
  have sE : ∀ X : Row, cabinSeen "ECONOMY" X = X.economySeen := fun _ => rfl
  have sP : ∀ X : Row, cabinSeen "PREMIUM_ECONOMY" X = X.premiumEconomySeen := fun _ => rfl
  have sB : ∀ X : Row, cabinSeen "BUSINESS" X = X.businessSeen := fun _ => rfl
  have sF : ∀ X : Row, cabinSeen "FIRST" X = X.firstSeen := fun _ => rfl
  simp only [_CABINS, List.mem_cons, List.not_mem_nil, or_false] at hc
  rcases hc with rfl | rfl | rfl | rfl
  · exact ⟨by simp only [hE]; exact applyCabin_economyMax c₀ seats r,
           by simp only [sE]; exact applyCabin_economySeen c₀ seats r⟩
  · exact ⟨by simp only [hP]; exact applyCabin_premiumMax c₀ seats r,
           by simp only [sP]; exact applyCabin_premiumSeen c₀ seats r⟩
  · exact ⟨by simp only [hB]; exact applyCabin_businessMax c₀ seats r,
           by simp only [sB]; exact applyCabin_businessSeen c₀ seats r⟩
  · exact ⟨by simp only [hF]; exact applyCabin_firstMax c₀ seats r,
           by simp only [sF]; exact applyCabin_firstSeen c₀ seats r⟩

theorem processOffer_lookup_ne (ctx : Ctx) (cabin : String) (st : DayState)
    (offer : JVal) (a : Accepted) (key : String × String)
    (hcl : classifyOffer cabin offer = some a) (hne : key ≠ keyOf a) :
    alookup key (processOffer ctx cabin st offer).per_flight
      = alookup key st.per_flight := by
  simp only [processOffer, hcl]
  by_cases hs : (alookup (keyOf a) st.per_flight).isSome = true
  · simp only [hs, if_true]
    exact alookup_aset_ne _ _ hne
  · rw [Bool.not_eq_true] at hs
    simp only [hs, Bool.false_eq_true, if_false]
    rw [alookup_append]
    cases h0 : alookup key st.per_flight with
    | some v => rfl
    | none =>
      have hne2 : ¬ (keyOf a = key) := fun hh => hne hh.symm
      simp [alookup, hne2]

theorem processOffer_lookup_self (ctx : Ctx) (cabin : String) (st : DayState)
    (offer : JVal) (a : Accepted)
    (hcl : classifyOffer cabin offer = some a) :
    alookup (keyOf a) (processOffer ctx cabin st offer).per_flight
      = some (offerUpdate ctx cabin st offer a).2.2 := by
  simp only [processOffer, hcl]
  by_cases hs : (alookup (keyOf a) st.per_flight).isSome = true
  · simp only [hs, if_true]
    exact alookup_aset_self _ _ _ hs
  · rw [Bool.not_eq_true] at hs
    simp only [hs, Bool.false_eq_true, if_false]
    rw [alookup_append]
    cases h0 : alookup (keyOf a) st.per_flight with
    | some v => rw [h0] at hs; simp at hs
    | none => simp [alookup]

theorem stepSeats_offer_some (c₀ c : String) (o : JVal) (a : Accepted)
    (hcl : classifyOffer c₀ o = some a) (key : String × String) :
    stepSeats c key (.offer c₀ o)
      = if c₀ = c then (if keyOf a = key then some a.seatsInt else none) else none := by
  simp [stepSeats, hcl]

theorem maxSeats_append_one (script : List DayStep) (s : DayStep) (c : String)
    (key : String × String) :
    maxSeats (script ++ [s]) c key =
      match stepSeats c key s with
      | some seats => updMax (maxSeats script c key) seats
      | none => maxSeats script c key := by
  rw [maxSeats, acceptedSeats_append_one]
  cases h : stepSeats c key s <;> simp [List.foldl_append, maxSeats]

theorem seen_append_one (script : List DayStep) (s : DayStep) (c : String)
    (key : String × String) :
    (!(acceptedSeats (script ++ [s]) c key).isEmpty)
      = (match stepSeats c key s with
         | some _ => true
         | none => !(acceptedSeats script c key).isEmpty) := by
  rw [acceptedSeats_append_one]
  cases h : stepSeats c key s <;> simp

theorem offerUpdate_cabin_char (ctx : Ctx) (c₀ : String) (st : DayState) (o : JVal)
    (a : Accepted) (past : List DayStep) (h : aggInv past st)
    (hcl : classifyOffer c₀ o = some a) {c : String} (hc : c ∈ _CABINS) :
    cabinMax c (offerUpdate ctx c₀ st o a).2.2
      = maxSeats (past ++ [DayStep.offer c₀ o]) c (keyOf a) ∧
    cabinSeen c (offerUpdate ctx c₀ st o a).2.2
      = !(acceptedSeats (past ++ [DayStep.offer c₀ o]) c (keyOf a)).isEmpty := by
  obtain ⟨hM, hS⟩ := offerUpdate_cabin ctx c₀ st o a c
  obtain ⟨hM2, hS2⟩ := applyCabin_cabin hc c₀ a.seatsInt (preRow st ctx.day a)
  have hbase : cabinMax c (preRow st ctx.day a) = maxSeats past c (keyOf a) ∧
      cabinSeen c (preRow st ctx.day a) = !(acceptedSeats past c (keyOf a)).isEmpty := by
    cases h0 : alookup (keyOf a) st.per_flight with
    | some r =>
      obtain ⟨hx, hy⟩ := preRow_cabin_existing st ctx.day a r h0 c
      obtain ⟨hu, hv⟩ := (h (keyOf a)).1 r h0 c hc
      exact ⟨hx.trans hu, hy.trans hv⟩
    | none =>
      have hnomem := (h (keyOf a)).2 h0
      have hnil := acceptedSeats_nil_of_not_mem past c (keyOf a) hnomem
      obtain ⟨hx, hy⟩ := preRow_cabin_fresh st ctx.day a h0 c
      constructor
      · rw [hx, maxSeats, hnil]
        rfl
      · rw [hy, hnil]
        rfl
  rw [hM, hM2, hS, hS2, maxSeats_append_one, seen_append_one,
      stepSeats_offer_some c₀ c o a hcl]
  by_cases hcc : c₀ = c
  · simp [hcc, hbase.1]
  · simp only [if_neg hcc]
    exact hbase

theorem aggInv_step (ctx : Ctx) (past : List DayStep) (st : DayState) (s : DayStep)
    (h : aggInv past st) : aggInv (past ++ [s]) (applyStep ctx st s) := by
  cases s with
  | carriersUpd d =>
    intro key
    obtain ⟨h1, h2⟩ := h key
    have hseats : ∀ c, acceptedSeats (past ++ [DayStep.carriersUpd d]) c key
        = acceptedSeats past c key := by
      intro c
      rw [acceptedSeats_append_one]
      simp [stepSeats]
    have hkeys : acceptedKeys (past ++ [DayStep.carriersUpd d]) = acceptedKeys past := by
      rw [acceptedKeys_append_one]
      simp [stepKey]
    have hpf : (applyStep ctx st (DayStep.carriersUpd d)).per_flight = st.per_flight := rfl
    constructor
    · intro row hrow c hc
      rw [hpf] at hrow
      obtain ⟨ha, hb⟩ := h1 row hrow c hc
      exact ⟨by rw [maxSeats, hseats c]; exact ha, by rw [hseats c]; exact hb⟩
    · intro hnone
      rw [hpf] at hnone
      rw [hkeys]
      exact h2 hnone
  | offer c₀ o =>
    cases hcl : classifyOffer c₀ o with
    | none =>
      have hst : applyStep ctx st (DayStep.offer c₀ o) = st :=
        processOffer_of_classify_none ctx c₀ st o hcl
      intro key
      obtain ⟨h1, h2⟩ := h key
      have hss : ∀ c, stepSeats c key (DayStep.offer c₀ o) = none := by
        intro c
        simp [stepSeats, hcl]
      have hseats : ∀ c, acceptedSeats (past ++ [DayStep.offer c₀ o]) c key
          = acceptedSeats past c key := by
        intro c
        rw [acceptedSeats_append_one, hss c]
        simp
      have hkeys : acceptedKeys (past ++ [DayStep.offer c₀ o]) = acceptedKeys past := by
        rw [acceptedKeys_append_one]
        simp [stepKey, hcl]
      rw [hst]
      constructor
      · intro row hrow c hc
        obtain ⟨ha, hb⟩ := h1 row hrow c hc
        exact ⟨by rw [maxSeats, hseats c]; exact ha, by rw [hseats c]; exact hb⟩
      · intro hnone
        rw [hkeys]
        exact h2 hnone
    | some a =>
      intro key
      by_cases hk : key = keyOf a
      · subst hk
        constructor
        · intro row hrow c hc
          have hself : alookup (keyOf a) (applyStep ctx st (DayStep.offer c₀ o)).per_flight
              = some (offerUpdate ctx c₀ st o a).2.2 :=
            processOffer_lookup_self ctx c₀ st o a hcl
          rw [hself] at hrow
          have hroweq : (offerUpdate ctx c₀ st o a).2.2 = row := by
            injection hrow
          rw [← hroweq]
          exact offerUpdate_cabin_char ctx c₀ st o a past h hcl hc
        · intro hnone
          have hself : alookup (keyOf a) (applyStep ctx st (DayStep.offer c₀ o)).per_flight
              = some (offerUpdate ctx c₀ st o a).2.2 :=
            processOffer_lookup_self ctx c₀ st o a hcl
          rw [hself] at hnone
          simp at hnone
      · have hlk : alookup key (applyStep ctx st (DayStep.offer c₀ o)).per_flight
            = alookup key st.per_flight :=
          processOffer_lookup_ne ctx c₀ st o a key hcl hk
        obtain ⟨h1, h2⟩ := h key
        have hss : ∀ c, stepSeats c key (DayStep.offer c₀ o) = none := by
          intro c
          rw [stepSeats_offer_some c₀ c o a hcl]
          have hne2 : ¬ (keyOf a = key) := fun hh => hk hh.symm
          simp [hne2]
        have hseats : ∀ c, acceptedSeats (past ++ [DayStep.offer c₀ o]) c key
            = acceptedSeats past c key := by
          intro c
          rw [acceptedSeats_append_one, hss c]
          simp
        constructor
        · intro row hrow c hc
          rw [hlk] at hrow
          obtain ⟨ha, hb⟩ := h1 row hrow c hc
          exact ⟨by rw [maxSeats, hseats c]; exact ha, by rw [hseats c]; exact hb⟩
        · intro hnone
          rw [hlk] at hnone
          have hmem := h2 hnone
          rw [acceptedKeys_append_one]
          simp only [stepKey, hcl, Option.map_some', Option.toList_some, List.mem_append,
            List.mem_singleton, not_or]
          exact ⟨hmem, hk⟩

theorem aggInv_processSteps (ctx : Ctx) (script : List DayStep) :
    ∀ past st, aggInv past st → aggInv (past ++ script) (processSteps ctx st script) := by
  induction script with
  | nil =>
    intro past st h
    simpa using h
  | cons s rest ih =>
    intro past st h
    have h2 := ih (past ++ [s]) (applyStep ctx st s) (aggInv_step ctx past st s h)
    simpa [List.append_assoc] using h2

theorem aggInv_init : aggInv [] initDayState := by
  intro key
  constructor
  · intro row hrow c hc
    simp [initDayState, alookup] at hrow
  · intro hnone
    simp [acceptedKeys]

theorem aggInv_run (ctx : Ctx) (script : List DayStep) :
    aggInv script (processSteps ctx initDayState script) := by
  have := aggInv_processSteps ctx script [] initDayState aggInv_init
  simpa using this

/-- C3: in every row the aggregator holds, each of the four cabin-maximum
fields is non-null only if the corresponding seen flag is true, and when
non-null it equals the running maximum of the seat counts of the accepted
offers matching that cabin and flight key; and processing an offer under
one cabin's query never changes another cabin's maximum or seen flag of an
existing row. -/
theorem C3_cabin_fields :
    (∀ ctx script key row,
       alookup key (processSteps ctx initDayState script).per_flight = some row →
       ∀ c ∈ _CABINS,
         cabinMax c row ≠ none →
           cabinSeen c row = true ∧ cabinMax c row = maxSeats script c key) ∧
    (∀ ctx cabin st offer key r₀ r,
       alookup key st.per_flight = some r₀ →
       alookup key (processOffer ctx cabin st offer).per_flight = some r →
       ∀ c ∈ _CABINS, c ≠ cabin →
         cabinMax c r = cabinMax c r₀ ∧ cabinSeen c r = cabinSeen c r₀) := by
  constructor
  · intro ctx script key row hrow c hc hne
    obtain ⟨ha, hb⟩ := ((aggInv_run ctx script) key).1 row hrow c hc
    have hnonempty : acceptedSeats script c key ≠ [] := by
      apply maxSeats_ne_none_nonempty
      rw [← ha]
      exact hne
    refine ⟨?_, ha⟩
    have hE : (acceptedSeats script c key).isEmpty = false := by
      cases hE0 : (acceptedSeats script c key).isEmpty
      · rfl
      · exact absurd (List.isEmpty_iff.mp hE0) hnonempty
    rw [hb, hE]
    rfl
  · intro ctx cabin st offer key r₀ r h0 h1 c hc hne
    cases hcl : classifyOffer cabin offer with
    | none =>
      have hst := processOffer_of_classify_none ctx cabin st offer hcl
      rw [hst, h0] at h1
      have hr := Option.some.inj h1
      rw [← hr]
      exact ⟨rfl, rfl⟩
    | some a =>
      by_cases hk : key = keyOf a
      · subst hk
        have hself := processOffer_lookup_self ctx cabin st offer a hcl
        rw [hself] at h1
        have hr := Option.some.inj h1
        obtain ⟨hM, hS⟩ := offerUpdate_cabin ctx cabin st offer a c
        obtain ⟨hM2, hS2⟩ := applyCabin_cabin hc cabin a.seatsInt (preRow st ctx.day a)
        have hpre := preRow_cabin_existing st ctx.day a r₀ h0 c
        have hcc : ¬ (cabin = c) := fun hh => hne hh.symm
        rw [← hr, hM, hM2, hS, hS2]
        simp only [if_neg hcc]
        exact hpre
      · have hlk := processOffer_lookup_ne ctx cabin st offer a key hcl hk
        rw [hlk, h0] at h1
        have hr := Option.some.inj h1
        rw [← hr]
        exact ⟨rfl, rfl⟩

/-- A context with tightness and seatmaps both disabled. -/
def plainCtx : Ctx := ⟨fun _ => .error "unused", ⟨false, false⟩, 0⟩

/-- A direct AA100 economy offer with five bookable seats. -/
def econOffer : JVal :=
  .obj [("itineraries", .arr [.obj [("segments", .arr [.obj
          [("carrierCode", .str "AA"),
           ("number", .str "100"),
           ("departure", .obj [("at", .str "2025-06-01T08:00:00")])]])]]),
        ("numberOfBookableSeats", .num 5)]

def wScript : List DayStep := [.offer "ECONOMY" econOffer]

def wKey : String × String := ("AA", "AA100@2025-06-01T08:00:00")

def wRow : Row :=
  { date := 0
    airlineCode := "AA"
    airline := "AA"
    flight := "AA100"
    departureAt := "2025-06-01T08:00:00"
    departureTime := "08:00"
    economyMax := some 5
    premiumEconomyMax := none
    businessMax := none
    firstMax := none
    economySeen := true
    premiumEconomySeen := false
    businessSeen := false
    firstSeen := false
    seatmapSeen := false
    tightnessSeen := false
    tightnessMinBookable := none
    tightnessScore := none
    tightnessLabel := none
    seatmapStatus := none
    seatmapError := none
    selectableEconomy := none
    selectablePremiumEconomy := none
    selectableBusiness := none
    selectableFirst := none }

theorem C3_witness :
    cabinSeen "ECONOMY" wRow = true ∧
    cabinMax "ECONOMY" wRow = maxSeats wScript "ECONOMY" wKey :=
  C3_cabin_fields.1 plainCtx wScript wKey wRow (by rfl) "ECONOMY" (by decide)
    (by decide)

/-- The four tightness fields of a row, as one value. -/
def tightnessOf (r : Row) : Option Int × Option Int × Option String × Bool :=
  (r.tightnessMinBookable, r.tightnessScore, r.tightnessLabel, r.tightnessSeen)

theorem applyCabin_tightness (c₀ : String) (seats : Option Int) (r : Row) :
    tightnessOf (applyCabin c₀ seats r) = tightnessOf r := by
  unfold applyCabin
  split_ifs <;> rfl

theorem applySeatmap_tightness (f : JVal → Except String JVal) (o : JVal) (k : String)
    (cache : List (String × SeatEntry)) (log : List String) (r : Row) :
    tightnessOf (applySeatmap f o k cache log r).2.2 = tightnessOf r := by
  simp only [applySeatmap]
  split <;> split <;> rfl

theorem offerUpdate_tightness (ctx : Ctx) (cabin : String) (st : DayState)
    (offer : JVal) (a : Accepted) (ht : ctx.opts.include_tightness = true) :
    tightnessOf (offerUpdate ctx cabin st offer a).2.2
      = tightnessOf (applyTightness offer (applyCabin cabin a.seatsInt
          (preRow st ctx.day a))) := by
  simp only [offerUpdate, ht, if_true]
  split
  · exact applySeatmap_tightness _ _ _ _ _ _
  · rfl

theorem applyTightness_char (offer : JVal) (r : Row) :
    (∀ mb, (compute_tightness offer).min_bookable = some mb →
      ((r.tightnessMinBookable = none ∨
          ∃ cur, r.tightnessMinBookable = some cur ∧ mb < cur) →
         tightnessOf (applyTightness offer r)
           = (some mb, some (compute_tightness offer).score,
              some (compute_tightness offer).label, true)) ∧
      (∀ cur, r.tightnessMinBookable = some cur → ¬ mb < cur →
         applyTightness offer r = r)) ∧
    ((compute_tightness offer).min_bookable = none → r.tightnessSeen = false →
       tightnessOf (applyTightness offer r) = (none, some 0, some "NO DATA", true)) ∧
    ((compute_tightness offer).min_bookable = none → r.tightnessSeen = true →
       applyTightness offer r = r) := by
  refine ⟨?_, ?_, ?_⟩
  · intro mb hmb
    constructor
    · intro hrep
      rcases hrep with hnone | ⟨cur, hcur, hlt⟩
      · simp [applyTightness, hmb, hnone, tightnessOf]
      · simp [applyTightness, hmb, hcur, hlt, tightnessOf]
    · intro cur hcur hnlt
      simp [applyTightness, hmb, hcur, hnlt]
  · intro hmb hseen
    simp [applyTightness, hmb, hseen, tightnessOf]
  · intro hmb hseen
    simp [applyTightness, hmb, hseen]

/-- C4: with tightness enabled, an accepted offer whose computed tightness
yields a numeric minimum smaller than the row's tracked minimum (or where
the row has none yet, including a previously recorded NO DATA state)
replaces the row's minimum, score and label together and marks tightness
seen; an offer yielding no numeric minimum writes the NO DATA triple only
when the row has never recorded a tightness result, and otherwise leaves
the tightness fields unchanged. -/
theorem C4_tightness_update (ctx : Ctx) (cabin : String) (st : DayState)
    (offer : JVal) (a : Accepted) (r : Row)
    (ht : ctx.opts.include_tightness = true)
    (hcl : classifyOffer cabin offer = some a)
    (hr : alookup (keyOf a) (processOffer ctx cabin st offer).per_flight = some r) :
    (∀ mb, (compute_tightness offer).min_bookable = some mb →
       ((preRow st ctx.day a).tightnessMinBookable = none ∨
          ∃ cur, (preRow st ctx.day a).tightnessMinBookable = some cur ∧ mb < cur) →
         r.tightnessMinBookable = some mb ∧
         r.tightnessScore = some (compute_tightness offer).score ∧
         r.tightnessLabel = some (compute_tightness offer).label ∧
         r.tightnessSeen = true) ∧
    ((compute_tightness offer).min_bookable = none →
       (preRow st ctx.day a).tightnessSeen = false →
         r.tightnessMinBookable = none ∧ r.tightnessScore = some 0 ∧
         r.tightnessLabel = some "NO DATA" ∧ r.tightnessSeen = true) ∧
    ((compute_tightness offer).min_bookable = none →
       (preRow st ctx.day a).tightnessSeen = true →
         tightnessOf r = tightnessOf (preRow st ctx.day a)) := by
  have hself := processOffer_lookup_self ctx cabin st offer a hcl
  rw [hself] at hr
  have hreq := Option.some.inj hr
  have hto : tightnessOf r
      = tightnessOf (applyTightness offer (applyCabin cabin a.seatsInt
          (preRow st ctx.day a))) := by
    rw [← hreq]
    exact offerUpdate_tightness ctx cabin st offer a ht
  set r0 := preRow st ctx.day a with hr0
  set r1 := applyCabin cabin a.seatsInt r0 with hr1
  have hfields : tightnessOf r1 = tightnessOf r0 := applyCabin_tightness cabin a.seatsInt r0
  have h1min : r1.tightnessMinBookable = r0.tightnessMinBookable :=
    congrArg (fun p => p.1) hfields
  have h1seen : r1.tightnessSeen = r0.tightnessSeen :=
    congrArg (fun p => p.2.2.2) hfields
  obtain ⟨hA, hB, hC⟩ := applyTightness_char offer r1
  refine ⟨?_, ?_, ?_⟩
  · intro mb hmb hrep
    have hrep1 : r1.tightnessMinBookable = none ∨
        ∃ cur, r1.tightnessMinBookable = some cur ∧ mb < cur := by
      rw [h1min]
      exact hrep
    have := (hA mb hmb).1 hrep1
    rw [← hto] at this
    exact ⟨congrArg (fun p => p.1) this, congrArg (fun p => p.2.1) this,
           congrArg (fun p => p.2.2.1) this, congrArg (fun p => p.2.2.2) this⟩
  · intro hmb hseen
    have := hB hmb (h1seen.trans hseen)
    rw [← hto] at this
    exact ⟨congrArg (fun p => p.1) this, congrArg (fun p => p.2.1) this,
           congrArg (fun p => p.2.2.1) this, congrArg (fun p => p.2.2.2) this⟩
  · intro hmb hseen
    have := hC hmb (h1seen.trans hseen)
    rw [hto, this]
    exact hfields

/-- A context with tightness enabled and seatmaps disabled. -/
def tightCtx : Ctx := ⟨fun _ => .error "x", ⟨true, false⟩, 0⟩

/-- The classification of econOffer under the economy query. -/
def aEcon : Accepted := ⟨"AA", "AA100", "2025-06-01T08:00:00", some 5⟩

def rTight : Row :=
  { wRow with tightnessSeen := true
              tightnessMinBookable := some 5
              tightnessScore := some 52
              tightnessLabel := some "TIGHT" }

theorem C4_witness :
    rTight.tightnessMinBookable = some 5 ∧
    rTight.tightnessScore = some (compute_tightness econOffer).score ∧
    rTight.tightnessLabel = some (compute_tightness econOffer).label ∧
    rTight.tightnessSeen = true :=
  (C4_tightness_update tightCtx "ECONOMY" initDayState econOffer aEcon rTight
      rfl (by decide) (by rfl)).1 5 (by decide) (Or.inl (by decide))

/-- The six seatmap-derived fields of a row, as one value. -/
def seatFieldsOf (r : Row) :
    Option String × Option (Option String) × Option (Option Int) ×
      Option (Option Int) × Option (Option Int) × Option (Option Int) :=
  (r.seatmapStatus, r.seatmapError, r.selectableEconomy, r.selectablePremiumEconomy,
   r.selectableBusiness, r.selectableFirst)

theorem applyCabin_seatFields (c₀ : String) (seats : Option Int) (r : Row) :
    seatFieldsOf (applyCabin c₀ seats r) = seatFieldsOf r := by
  unfold applyCabin
  split_ifs <;> rfl

theorem applyTightness_seatFields (o : JVal) (r : Row) :
    seatFieldsOf (applyTightness o r) = seatFieldsOf r := by
  simp only [applyTightness]
  split <;> split <;> rfl

theorem alookup_append_some {α β : Type} [DecidableEq α] {k : α} {e : β}
    {l₁ : List (α × β)} (l₂ : List (α × β)) (h : alookup k l₁ = some e) :
    alookup k (l₁ ++ l₂) = some e := by
  rw [alookup_append, h]

theorem applySeatmap_char (f : JVal → Except String JVal) (o : JVal) (k : String)
    (cache : List (String × SeatEntry)) (log : List String) (r : Row) :
    (applySeatmap f o k cache log r).1
      = (if (alookup k cache).isSome then cache else cache ++ [(k, seatEntryOf f o)]) ∧
    (applySeatmap f o k cache log r).2.1
      = (if (alookup k cache).isSome then log else log ++ [k]) ∧
    ∃ e, alookup k (applySeatmap f o k cache log r).1 = some e ∧
      (applySeatmap f o k cache log r).2.2.seatmapStatus = some e.status ∧
      (applySeatmap f o k cache log r).2.2.seatmapError = some e.err ∧
      ((e.status = "ok" ∧
         (applySeatmap f o k cache log r).2.2.selectableEconomy
           = some (some (e.occurrences.count "ECONOMY" : Int)) ∧
         (applySeatmap f o k cache log r).2.2.selectablePremiumEconomy
           = some (some (e.occurrences.count "PREMIUM_ECONOMY" : Int)) ∧
         (applySeatmap f o k cache log r).2.2.selectableBusiness
           = some (some (e.occurrences.count "BUSINESS" : Int)) ∧
         (applySeatmap f o k cache log r).2.2.selectableFirst
           = some (some (e.occurrences.count "FIRST" : Int))) ∨
       (e.status ≠ "ok" ∧
         (applySeatmap f o k cache log r).2.2.selectableEconomy = some none ∧
         (applySeatmap f o k cache log r).2.2.selectablePremiumEconomy = some none ∧
         (applySeatmap f o k cache log r).2.2.selectableBusiness = some none ∧
         (applySeatmap f o k cache log r).2.2.selectableFirst = some none)) := by
  refine ⟨by simp only [applySeatmap], by simp only [applySeatmap], ?_⟩
  by_cases hs : (alookup k cache).isSome = true
  · obtain ⟨e0, he0⟩ := Option.isSome_iff_exists.mp hs
    refine ⟨e0, ?_, ?_, ?_, ?_⟩
    · simp only [applySeatmap, he0, Option.isSome_some, if_true]
    · simp only [applySeatmap, he0, Option.isSome_some, if_true, Option.getD_some]
      split <;> try rfl
    · simp only [applySeatmap, he0, Option.isSome_some, if_true, Option.getD_some]
      split <;> try rfl
    · by_cases hok : e0.status = "ok"
      · refine Or.inl ⟨hok, ?_, ?_, ?_, ?_⟩ <;>
          simp only [applySeatmap, he0, Option.isSome_some, if_true, Option.getD_some,
            hok, if_pos]
      · refine Or.inr ⟨hok, ?_, ?_, ?_, ?_⟩ <;>
          simp only [applySeatmap, he0, Option.isSome_some, if_true, Option.getD_some,
            if_neg hok]
  · have hnone : alookup k cache = none := by
      cases h0 : alookup k cache
      · rfl
      · rw [h0] at hs; simp at hs
    have hlk : alookup k (cache ++ [(k, seatEntryOf f o)]) = some (seatEntryOf f o) := by
      rw [alookup_append, hnone]
      simp [alookup]
    refine ⟨seatEntryOf f o, ?_, ?_, ?_, ?_⟩
    · simp only [applySeatmap, hnone, Option.isSome_none, Bool.false_eq_true, if_false]
      exact hlk
    · simp only [applySeatmap, hnone, Option.isSome_none, Bool.false_eq_true, if_false,
        hlk, Option.getD_some]
      split <;> rfl
    · simp only [applySeatmap, hnone, Option.isSome_none, Bool.false_eq_true, if_false,
        hlk, Option.getD_some]
      split <;> rfl
    · by_cases hok : (seatEntryOf f o).status = "ok"
      · refine Or.inl ⟨hok, ?_, ?_, ?_, ?_⟩ <;>
          simp only [applySeatmap, hnone, Option.isSome_none, Bool.false_eq_true, if_false,
            hlk, Option.getD_some, hok, if_pos]
      · refine Or.inr ⟨hok, ?_, ?_, ?_, ?_⟩ <;>
          simp only [applySeatmap, hnone, Option.isSome_none, Bool.false_eq_true, if_false,
            hlk, Option.getD_some, if_neg hok]

theorem seatFields_components {x y : Row} (h : seatFieldsOf x = seatFieldsOf y) :
    x.seatmapStatus = y.seatmapStatus ∧ x.seatmapError = y.seatmapError ∧
    x.selectableEconomy = y.selectableEconomy ∧
    x.selectablePremiumEconomy = y.selectablePremiumEconomy ∧
    x.selectableBusiness = y.selectableBusiness ∧
    x.selectableFirst = y.selectableFirst :=
  ⟨congrArg (fun p => p.1) h, congrArg (fun p => p.2.1) h,
   congrArg (fun p => p.2.2.1) h, congrArg (fun p => p.2.2.2.1) h,
   congrArg (fun p => p.2.2.2.2.1) h, congrArg (fun p => p.2.2.2.2.2) h⟩

theorem preRow_seatFields_existing (st : DayState) (day : Int) (a : Accepted) (r : Row)
    (h : alookup (keyOf a) st.per_flight = some r) :
    seatFieldsOf (preRow st day a) = seatFieldsOf r := by
  unfold preRow
  rw [h]
  rfl

theorem preRow_status_fresh (st : DayState) (day : Int) (a : Accepted)
    (h : alookup (keyOf a) st.per_flight = none) :
    (preRow st day a).seatmapStatus = none := by
  unfold preRow
  rw [h]
  rfl

theorem offerUpdate_no_seatmaps (ctx : Ctx) (cabin : String) (st : DayState)
    (offer : JVal) (a : Accepted) (h : ctx.opts.include_seatmaps = false) :
    (offerUpdate ctx cabin st offer a).1 = st.seatmap_cache ∧
    (offerUpdate ctx cabin st offer a).2.1 = st.fetchLog ∧
    seatFieldsOf (offerUpdate ctx cabin st offer a).2.2
      = seatFieldsOf (preRow st ctx.day a) := by
  refine ⟨?_, ?_, ?_⟩
  · simp only [offerUpdate, h, Bool.false_eq_true, if_false]
  · simp only [offerUpdate, h, Bool.false_eq_true, if_false]
  · simp only [offerUpdate, h, Bool.false_eq_true, if_false]
    split
    · exact (applyTightness_seatFields _ _).trans (applyCabin_seatFields _ _ _)
    · exact applyCabin_seatFields _ _ _

theorem offerUpdate_seatmaps (ctx : Ctx) (cabin : String) (st : DayState)
    (offer : JVal) (a : Accepted) (h : ctx.opts.include_seatmaps = true) :
    offerUpdate ctx cabin st offer a
      = applySeatmap ctx.fetch offer (keyOf a).2 st.seatmap_cache st.fetchLog
          (if ctx.opts.include_tightness
            then applyTightness offer (applyCabin cabin a.seatsInt (preRow st ctx.day a))
            else applyCabin cabin a.seatsInt (preRow st ctx.day a)) := by
  simp only [offerUpdate, h, if_true]

theorem processOffer_components (ctx : Ctx) (cabin : String) (st : DayState)
    (offer : JVal) (a : Accepted) (hcl : classifyOffer cabin offer = some a) :
    (processOffer ctx cabin st offer).seatmap_cache = (offerUpdate ctx cabin st offer a).1 ∧
    (processOffer ctx cabin st offer).fetchLog = (offerUpdate ctx cabin st offer a).2.1 := by
  refine ⟨?_, ?_⟩ <;> simp only [processOffer, hcl]

/-- The seatmap-enrichment invariant: the fetch log never repeats a key and
only names cached keys, and every row carrying a seatmap status points at a
cache entry whose status, error and per-cabin counts the row copies (null
counts unless the entry is ok). -/
def seatInv (st : DayState) : Prop :=
  st.fetchLog.Nodup ∧
  (∀ k ∈ st.fetchLog, (alookup k st.seatmap_cache).isSome = true) ∧
  (∀ key row, alookup key st.per_flight = some row →
     ∀ s0, row.seatmapStatus = some s0 →
       ∃ e, alookup key.2 st.seatmap_cache = some e ∧ e.status = s0 ∧
         row.seatmapError = some e.err ∧
         ((e.status = "ok" ∧
            row.selectableEconomy = some (some (e.occurrences.count "ECONOMY" : Int)) ∧
            row.selectablePremiumEconomy
              = some (some (e.occurrences.count "PREMIUM_ECONOMY" : Int)) ∧
            row.selectableBusiness = some (some (e.occurrences.count "BUSINESS" : Int)) ∧
            row.selectableFirst = some (some (e.occurrences.count "FIRST" : Int))) ∨
          (e.status ≠ "ok" ∧
            row.selectableEconomy = some none ∧
            row.selectablePremiumEconomy = some none ∧
            row.selectableBusiness = some none ∧
            row.selectableFirst = some none)))

theorem seatInv_step (ctx : Ctx) (st : DayState) (s : DayStep) (h : seatInv st) :
    seatInv (applyStep ctx st s) := by
  obtain ⟨hN, hL, hR⟩ := h
  cases s with
  | carriersUpd d => exact ⟨hN, hL, hR⟩
  | offer c₀ o =>
    cases hcl : classifyOffer c₀ o with
    | none =>
      have hst : applyStep ctx st (DayStep.offer c₀ o) = st :=
        processOffer_of_classify_none ctx c₀ st o hcl
      rw [hst]
      exact ⟨hN, hL, hR⟩
    | some a =>
      obtain ⟨hcache, hlog⟩ := processOffer_components ctx c₀ st o a hcl
      have hcache' : (applyStep ctx st (DayStep.offer c₀ o)).seatmap_cache
          = (offerUpdate ctx c₀ st o a).1 := hcache
      have hlog' : (applyStep ctx st (DayStep.offer c₀ o)).fetchLog
          = (offerUpdate ctx c₀ st o a).2.1 := hlog
      cases hsm : ctx.opts.include_seatmaps with
      | false =>
        obtain ⟨hc1, hc2, hc3⟩ := offerUpdate_no_seatmaps ctx c₀ st o a hsm
        refine ⟨?_, ?_, ?_⟩
        · rw [hlog', hc2]
          exact hN
        · intro k hk
          rw [hlog', hc2] at hk
          rw [hcache', hc1]
          exact hL k hk
        · intro key row hrow s0 hs0
          rw [hcache', hc1]
          by_cases hk : key = keyOf a
          · subst hk
            have hself : alookup (keyOf a)
                (applyStep ctx st (DayStep.offer c₀ o)).per_flight
                = some (offerUpdate ctx c₀ st o a).2.2 :=
              processOffer_lookup_self ctx c₀ st o a hcl
            rw [hself] at hrow
            have hre := Option.some.inj hrow
            obtain ⟨f1, f2, f3, f4, f5, f6⟩ := seatFields_components hc3
            cases h0 : alookup (keyOf a) st.per_flight with
            | some r₀ =>
              obtain ⟨g1, g2, g3, g4, g5, g6⟩ :=
                seatFields_components (preRow_seatFields_existing st ctx.day a r₀ h0)
              have hst0 : r₀.seatmapStatus = some s0 := by
                rw [← g1, ← f1, hre]
                exact hs0
              obtain ⟨e, he1, he2, he3, he4⟩ := hR (keyOf a) r₀ h0 s0 hst0
              refine ⟨e, he1, he2, ?_, ?_⟩
              · rw [← hre, f2, g2]
                exact he3
              · rcases he4 with ⟨hok, q1, q2, q3, q4⟩ | ⟨hok, q1, q2, q3, q4⟩
                · exact Or.inl ⟨hok,
                    by rw [← hre, f3, g3]; exact q1,
                    by rw [← hre, f4, g4]; exact q2,
                    by rw [← hre, f5, g5]; exact q3,
                    by rw [← hre, f6, g6]; exact q4⟩
                · exact Or.inr ⟨hok,
                    by rw [← hre, f3, g3]; exact q1,
                    by rw [← hre, f4, g4]; exact q2,
                    by rw [← hre, f5, g5]; exact q3,
                    by rw [← hre, f6, g6]; exact q4⟩
            | none =>
              have hnone2 : row.seatmapStatus = none := by
                rw [← hre, f1, preRow_status_fresh st ctx.day a h0]
              rw [hnone2] at hs0
              simp at hs0
          · have hlk : alookup key (applyStep ctx st (DayStep.offer c₀ o)).per_flight
                = alookup key st.per_flight :=
              processOffer_lookup_ne ctx c₀ st o a key hcl hk
            rw [hlk] at hrow
            exact hR key row hrow s0 hs0
      | true =>
        have hup := offerUpdate_seatmaps ctx c₀ st o a hsm
        obtain ⟨hC, hG, e, hce, hst3, herr3, hsel3⟩ :=
          applySeatmap_char ctx.fetch o (keyOf a).2 st.seatmap_cache st.fetchLog
            (if ctx.opts.include_tightness
              then applyTightness o (applyCabin c₀ a.seatsInt (preRow st ctx.day a))
              else applyCabin c₀ a.seatsInt (preRow st ctx.day a))
        refine ⟨?_, ?_, ?_⟩
        · rw [hlog', hup, hG]
          by_cases hpc : (alookup (keyOf a).2 st.seatmap_cache).isSome = true
          · simp only [hpc, if_true]
            exact hN
          · have hmem : (keyOf a).2 ∉ st.fetchLog := fun hm => hpc (hL _ hm)
            rw [Bool.not_eq_true] at hpc
            simp only [hpc, Bool.false_eq_true, if_false]
            rw [List.nodup_append]
            refine ⟨hN, List.nodup_singleton _, ?_⟩
            intro x hx hx2
            rw [List.mem_singleton] at hx2
            subst hx2
            exact hmem hx
        · intro k hk
          rw [hlog', hup, hG] at hk
          rw [hcache', hup, hC]
          by_cases hpc : (alookup (keyOf a).2 st.seatmap_cache).isSome = true
          · simp only [hpc, if_true] at hk ⊢
            exact hL k hk
          · rw [Bool.not_eq_true] at hpc
            simp only [hpc, Bool.false_eq_true, if_false] at hk ⊢
            rw [List.mem_append, List.mem_singleton] at hk
            rcases hk with hk | hk
            · obtain ⟨e', he'⟩ := Option.isSome_iff_exists.mp (hL k hk)
              rw [alookup_append_some _ he']
              rfl
            · subst hk
              have hnone : alookup (keyOf a).2 st.seatmap_cache = none := by
                cases hq : alookup (keyOf a).2 st.seatmap_cache
                · rfl
                · rw [hq] at hpc
                  simp at hpc
              rw [alookup_append, hnone]
              simp [alookup]
        · intro key row hrow s0 hs0
          by_cases hk : key = keyOf a
          · subst hk
            have hself : alookup (keyOf a)
                (applyStep ctx st (DayStep.offer c₀ o)).per_flight
                = some (offerUpdate ctx c₀ st o a).2.2 :=
              processOffer_lookup_self ctx c₀ st o a hcl
            rw [hself] at hrow
            have hre := Option.some.inj hrow
            rw [hup] at hre
            have hs0' : some e.status = some s0 := by
              rw [← hst3, hre]
              exact hs0
            have hes := Option.some.inj hs0'
            refine ⟨e, ?_, hes, ?_, ?_⟩
            · rw [hcache', hup]
              exact hce
            · rw [← hre]
              exact herr3
            · rcases hsel3 with ⟨hok, q1, q2, q3, q4⟩ | ⟨hok, q1, q2, q3, q4⟩
              · exact Or.inl ⟨hok, by rw [← hre]; exact q1, by rw [← hre]; exact q2,
                  by rw [← hre]; exact q3, by rw [← hre]; exact q4⟩
              · exact Or.inr ⟨hok, by rw [← hre]; exact q1, by rw [← hre]; exact q2,
                  by rw [← hre]; exact q3, by rw [← hre]; exact q4⟩
          · have hlk : alookup key (applyStep ctx st (DayStep.offer c₀ o)).per_flight
                = alookup key st.per_flight :=
              processOffer_lookup_ne ctx c₀ st o a key hcl hk
            rw [hlk] at hrow
            obtain ⟨e', he1, he2, he3, he4⟩ := hR key row hrow s0 hs0
            refine ⟨e', ?_, he2, he3, he4⟩
            rw [hcache', hup, hC]
            by_cases hpc : (alookup (keyOf a).2 st.seatmap_cache).isSome = true
            · simp only [hpc, if_true]
              exact he1
            · rw [Bool.not_eq_true] at hpc
              simp only [hpc, Bool.false_eq_true, if_false]
              exact alookup_append_some _ he1

theorem seatInv_processSteps (ctx : Ctx) :
    ∀ script st, seatInv st → seatInv (processSteps ctx st script) := by
  intro script
  induction script with
  | nil => intro st h; exact h
  | cons s rest ih =>
    intro st h
    exact ih (applyStep ctx st s) (seatInv_step ctx st s h)

theorem seatInv_init : seatInv initDayState := by
  refine ⟨List.nodup_nil, ?_, ?_⟩
  · intro k hk
    simp [initDayState] at hk
  · intro key row hrow
    simp [initDayState, alookup] at hrow

theorem cache_step_stable (ctx : Ctx) (st : DayState) (s : DayStep) (k : String)
    (e : SeatEntry) (h : alookup k st.seatmap_cache = some e) :
    alookup k (applyStep ctx st s).seatmap_cache = some e := by
  cases s with
  | carriersUpd d => exact h
  | offer c₀ o =>
    cases hcl : classifyOffer c₀ o with
    | none =>
      have hst : applyStep ctx st (DayStep.offer c₀ o) = st :=
        processOffer_of_classify_none ctx c₀ st o hcl
      rw [hst]
      exact h
    | some a =>
      have hcache : (applyStep ctx st (DayStep.offer c₀ o)).seatmap_cache
          = (offerUpdate ctx c₀ st o a).1 :=
        (processOffer_components ctx c₀ st o a hcl).1
      rw [hcache]
      cases hsm : ctx.opts.include_seatmaps with
      | false =>
        rw [(offerUpdate_no_seatmaps ctx c₀ st o a hsm).1]
        exact h
      | true =>
        rw [offerUpdate_seatmaps ctx c₀ st o a hsm,
          (applySeatmap_char ctx.fetch o (keyOf a).2 st.seatmap_cache st.fetchLog _).1]
        by_cases hpc : (alookup (keyOf a).2 st.seatmap_cache).isSome = true
        · simp only [hpc, if_true]
          exact h
        · rw [Bool.not_eq_true] at hpc
          simp only [hpc, Bool.false_eq_true, if_false]
          exact alookup_append_some _ h

theorem cache_steps_stable (ctx : Ctx) :
    ∀ more st k e, alookup k st.seatmap_cache = some e →
      alookup k (processSteps ctx st more).seatmap_cache = some e := by
  intro more
  induction more with
  | nil => intro st k e h; exact h
  | cons s rest ih =>
    intro st k e h
    exact ih (applyStep ctx st s) k e (cache_step_stable ctx st s k e h)

/-- C7: within one day the seatmap fetch runs at most once per flight key
(the fetch log never repeats a key); a fetch failure is caught and cached
as an error status with zero counts and its message; cache entries persist
for the remainder of the day's processing; every row carrying the error
status has null selectable-seat fields; and every row carrying the ok
status copies the per-cabin selectable counts of its cache entry. -/
theorem C7_seatmap_cache :
    (∀ ctx script, (processSteps ctx initDayState script).fetchLog.Nodup) ∧
    (∀ f offer msg, f offer = Except.error msg →
       seatEntryOf f offer = ⟨[], "error", some msg⟩) ∧
    (∀ ctx st more k e, alookup k st.seatmap_cache = some e →
       alookup k (processSteps ctx st more).seatmap_cache = some e) ∧
    (∀ ctx script key row,
       alookup key (processSteps ctx initDayState script).per_flight = some row →
       row.seatmapStatus = some "error" →
         row.selectableEconomy = some none ∧
         row.selectablePremiumEconomy = some none ∧
         row.selectableBusiness = some none ∧
         row.selectableFirst = some none) ∧
    (∀ ctx script key row,
       alookup key (processSteps ctx initDayState script).per_flight = some row →
       row.seatmapStatus = some "ok" →
         ∃ e, alookup key.2 (processSteps ctx initDayState script).seatmap_cache
             = some e ∧ e.status = "ok" ∧
           row.selectableEconomy = some (some (e.occurrences.count "ECONOMY" : Int)) ∧
           row.selectablePremiumEconomy
             = some (some (e.occurrences.count "PREMIUM_ECONOMY" : Int)) ∧
           row.selectableBusiness = some (some (e.occurrences.count "BUSINESS" : Int)) ∧
           row.selectableFirst = some (some (e.occurrences.count "FIRST" : Int))) := by
  refine ⟨?_, ?_, ?_, ?_, ?_⟩
  · intro ctx script
    exact (seatInv_processSteps ctx script initDayState seatInv_init).1
  · intro f offer msg h
    simp [seatEntryOf, h]
  · intro ctx st more k e h
    exact cache_steps_stable ctx more st k e h
  · intro ctx script key row hrow hst0
    obtain ⟨e, he1, he2, he3, he4⟩ :=
      (seatInv_processSteps ctx script initDayState seatInv_init).2.2 key row hrow
        "error" hst0
    rcases he4 with ⟨hok, _⟩ | ⟨_, q1, q2, q3, q4⟩
    · rw [he2] at hok
      exact absurd hok (by decide)
    · exact ⟨q1, q2, q3, q4⟩
  · intro ctx script key row hrow hst0
    obtain ⟨e, he1, he2, he3, he4⟩ :=
      (seatInv_processSteps ctx script initDayState seatInv_init).2.2 key row hrow
        "ok" hst0
    rcases he4 with ⟨hok, q1, q2, q3, q4⟩ | ⟨hnok, _⟩
    · exact ⟨e, he1, he2, q1, q2, q3, q4⟩
    · exact absurd he2 hnok

def rSeat : Row :=
  { rTight with seatmapSeen := true
                seatmapStatus := some "error"
                seatmapError := some (some "seatmap down")
                selectableEconomy := some none
                selectablePremiumEconomy := some none
                selectableBusiness := some none
                selectableFirst := some none }

theorem C7_witness :
    rSeat.selectableEconomy = some none ∧
    rSeat.selectablePremiumEconomy = some none ∧
    rSeat.selectableBusiness = some none ∧
    rSeat.selectableFirst = some none :=
  C7_seatmap_cache.2.2.2.1 wCtx [.offer "ECONOMY" econOffer] wKey rSeat
    (by rfl) (by rfl)

/-- Outcome of one flight_offers_search attempt as the driver
distinguishes them (seats_watch.py lines 696-702): a payload, an HTTPError
carrying its response status (none when the error has no response), or
any other exception, which the retry handler does not catch. -/
inductive SearchOutcome where
  | ok (payload : JVal)
  | httpError (status : Option Int)
  | otherError (msg : String)

/-- A query failure as it propagates out of the retry loop. -/
inductive QueryError where
  | http (status : Option Int)
  | other (msg : String)
deriving Repr, DecidableEq

/-- Result of the retry loop: the payload or the propagated error, the
slept backoff delays in order, and how many search calls were issued. -/
structure QueryResult where
  result : Except QueryError JVal
  sleeps : List ℚ
  attempts : Nat

/-- Body of the retry loop of one (day, cabin) query (seats_watch.py
lines 523-526 and 695-702), recursing on the number of loop iterations
the surrounding range(retries + 1) still has: attempt the search; an
HTTPError with status 429 while attempts remain sleeps the current
backoff, doubles it capped at 16 seconds, and retries; any other failure
propagates at once.  Backoff values are exact rationals; doubling and min
are exact in IEEE floating point for these magnitudes.  The zero-fuel
fallback is unreachable: the loop always exits by return or raise on its
last iteration, where attempt < retries already fails. -/
def runCabinQueryF (search : Nat → SearchOutcome) (retries : Nat) :
    Nat → Nat → ℚ → List ℚ → QueryResult
  | fuel, attempt, backoff, sleeps =>
    match search attempt with
    | .ok p => ⟨.ok p, sleeps, attempt + 1⟩
    | .httpError status =>
      match fuel with
      | f + 1 =>
        if status = some 429 ∧ attempt < retries then
          runCabinQueryF search retries f (attempt + 1) (min (backoff * 2) 16)
            (sleeps ++ [backoff])
        else ⟨.error (.http status), sleeps, attempt + 1⟩
      | 0 => ⟨.error (.http status), sleeps, attempt + 1⟩
    | .otherError msg => ⟨.error (.other msg), sleeps, attempt + 1⟩

/-- The retry loop entered at a given attempt: the remaining iteration
count of range(retries + 1) at attempt is retries + 1 - attempt. -/
def runCabinQuery (search : Nat → SearchOutcome) (retries attempt : Nat)
    (backoff : ℚ) (sleeps : List ℚ) : QueryResult :=
  runCabinQueryF search retries (retries + 1 - attempt) attempt backoff sleeps

theorem runCabinQuery_unfold (search : Nat → SearchOutcome) (retries attempt : Nat)
    (backoff : ℚ) (sleeps : List ℚ) (h : attempt ≤ retries) :
    runCabinQuery search retries attempt backoff sleeps
      = match search attempt with
        | .ok p => ⟨.ok p, sleeps, attempt + 1⟩
        | .httpError status =>
          if status = some 429 ∧ attempt < retries then
            runCabinQuery search retries (attempt + 1) (min (backoff * 2) 16)
              (sleeps ++ [backoff])
          else ⟨.error (.http status), sleeps, attempt + 1⟩
        | .otherError msg => ⟨.error (.other msg), sleeps, attempt + 1⟩ := by
  unfold runCabinQuery
  have hf : retries + 1 - attempt = (retries - attempt) + 1 := by omega
  have hf2 : retries + 1 - (attempt + 1) = retries - attempt := by omega
  rw [hf, runCabinQueryF, hf2]

/-- Result of the four cabin queries of one day. -/
structure CabinsResult where
  state : Except QueryError DayState
  sleeps : List ℚ
  searches : List (String × Nat)

/-- The cabin loop of one day (seats_watch.py lines 523-702): query each
cabin in order with retries, merging each successful payload into the day
state; the first propagated failure aborts the day. -/
def runCabins (ctx : Ctx) (search : String → Nat → SearchOutcome) (retries : Nat)
    (backoff_initial : ℚ) : List String → DayState → CabinsResult
  | [], st => ⟨.ok st, [], []⟩
  | cabin :: rest, st =>
    let q := runCabinQuery (search cabin) retries 0 backoff_initial []
    let here := (List.range q.attempts).map (fun i => (cabin, i))
    match q.result with
    | .error e => ⟨.error e, q.sleeps, here⟩
    | .ok payload =>
      let r := runCabins ctx search retries backoff_initial rest
        (processPayload ctx cabin st payload)
      ⟨r.state, q.sleeps ++ r.sleeps, here ++ r.searches⟩

/-- The emission order of a day's rows (seats_watch.py line 704): by
airline code, then departure timestamp, both compared as strings. -/
def rowKeyLE (x y : (String × String) × Row) : Prop :=
  x.2.airlineCode < y.2.airlineCode ∨
    (x.2.airlineCode = y.2.airlineCode ∧ x.2.departureAt ≤ y.2.departureAt)

instance rowKeyLE.decRel : DecidableRel rowKeyLE :=
  fun _ _ => inferInstanceAs (Decidable (_ ∨ _))

/-- The rows emitted for one day: the per_flight items sorted by the key
above (Python's sorted is a stable sort, as is insertionSort). -/
def sortDayRows (pf : List ((String × String) × Row)) : List Row :=
  (List.insertionSort rowKeyLE pf).map (fun kv => kv.2)

/-- One day of the driver: the four cabin queries from a fresh state,
then the sorted row emission. -/
structure DayOutcome where
  rows : Except QueryError (List Row)
  sleeps : List ℚ
  searches : List (String × Nat)

def runDay (ctx : Ctx) (search : String → Nat → SearchOutcome) (retries : Nat)
    (backoff_initial : ℚ) : DayOutcome :=
  let r := runCabins ctx search retries backoff_initial _CABINS initDayState
  ⟨r.state.map (fun st => sortDayRows st.per_flight), r.sleeps, r.searches⟩

/-- A failure of the whole range run: the eager date validation or a
propagated query failure. -/
inductive RunError where
  | valueError (msg : String)
  | query (e : QueryError)

/-- Observable outcome of a range run: the returned rows or the raised
error, the rows appended before any failure, the progress-callback
invocations (day, zero-based index, total) in order, and the search calls
issued as (day, cabin, attempt). -/
structure RangeOutcome where
  result : Except RunError (List Row)
  emitted : List Row
  callbacks : List (Int × Nat × Nat)
  searches : List (Int × String × Nat)

/-- The day loop (seats_watch.py lines 513-712): for each enumerated day,
invoke the progress callback, run the day, and append its rows; a day
failure propagates, discarding the local row list and producing no
further days. -/
def runDays (fetch : JVal → Except String JVal) (opts : Opts)
    (search : Int → String → Nat → SearchOutcome) (retries : Nat)
    (backoff_initial : ℚ) (total : Nat) : List (Int × Nat) → RangeOutcome
  | [] => ⟨.ok [], [], [], []⟩
  | (day, idx) :: rest =>
    let d := runDay ⟨fetch, opts, day⟩ (search day) retries backoff_initial
    match d.rows with
    | .error e =>
      ⟨.error (.query e), [], [(day, idx, total)],
       d.searches.map (fun ci => (day, ci.1, ci.2))⟩
    | .ok rows =>
      let r := runDays fetch opts search retries backoff_initial total rest
      ⟨r.result.map (fun rs => rows ++ rs), rows ++ r.emitted,
       (day, idx, total) :: r.callbacks,
       d.searches.map (fun ci => (day, ci.1, ci.2)) ++ r.searches⟩

/-- The enumerated days of the range, ascending with zero-based indices
(_iter_dates with enumerate, seats_watch.py lines 299-306 and 514). -/
def daysList (start_date end_date : Int) : List (Int × Nat) :=
  (List.range ((end_date - start_date).toNat + 1)).map
    (fun i => (start_date + Int.ofNat i, i))

/-- find_direct_flight_max_bookable_seats_by_cabin (seats_watch.py lines
492-712).  Dates are day ordinals; the HTTP client is the search oracle;
the progress callback is recorded in the callbacks trace.  A reversed
range raises ValueError at the first iteration of _iter_dates, before any
callback or search. -/
def find_direct_flight_max_bookable_seats_by_cabin
    (fetch : JVal → Except String JVal) (opts : Opts)
    (search : Int → String → Nat → SearchOutcome)
    (retries : Nat) (backoff_initial : ℚ)
    (start_date end_date : Int) : RangeOutcome :=
  if end_date < start_date then
    ⟨.error (.valueError "END_DATE must be >= START_DATE"), [], [], []⟩
  else
    runDays fetch opts search retries backoff_initial
      ((end_date - start_date).toNat + 1) (daysList start_date end_date)

/-- The backoff delay slept before the (i+1)-th retry: the initial value
doubled i times, capped at 16 seconds. -/
def backoffAt (b : ℚ) : Nat → ℚ
  | 0 => b
  | i + 1 => min (backoffAt b i * 2) 16

theorem backoffAt_shift (b : ℚ) :
    ∀ i, backoffAt b (i + 1) = backoffAt (min (b * 2) 16) i := by
  intro i
  induction i with
  | zero => rfl
  | succ n ih =>
    show min (backoffAt b (n + 1) * 2) 16 = min (backoffAt (min (b * 2) 16) n * 2) 16
    rw [ih]

theorem runCabinQuery_skip (search : Nat → SearchOutcome) (retries : Nat) :
    ∀ (j attempt : Nat) (b : ℚ) (sleeps : List ℚ),
      (∀ i, i < j → search (attempt + i) = .httpError (some 429)) →
      attempt + j ≤ retries →
      runCabinQuery search retries attempt b sleeps
        = runCabinQuery search retries (attempt + j) (backoffAt b j)
            (sleeps ++ (List.range j).map (backoffAt b)) := by
  intro j
  induction j with
  | zero =>
    intro attempt b sleeps h429 hle
    simp [backoffAt]
  | succ n ih =>
    intro attempt b sleeps h429 hle
    have h0 : search attempt = .httpError (some 429) := by
      have := h429 0 (Nat.succ_pos n)
      simpa using this
    have hlt : attempt < retries := by omega
    rw [runCabinQuery_unfold search retries attempt b sleeps (by omega)]
    simp only [h0]
    rw [if_pos ⟨trivial, hlt⟩]
    have hrec := ih (attempt + 1) (min (b * 2) 16) (sleeps ++ [b])
      (fun i hi => by
        have hh := h429 (i + 1) (by omega)
        rw [show attempt + 1 + i = attempt + (i + 1) from by omega]
        exact hh)
      (by omega)
    rw [hrec]
    have e1 : attempt + 1 + n = attempt + (n + 1) := by omega
    have e2 : backoffAt (min (b * 2) 16) n = backoffAt b (n + 1) :=
      (backoffAt_shift b n).symm
    have e3 : (sleeps ++ [b]) ++ (List.range n).map (backoffAt (min (b * 2) 16))
        = sleeps ++ (List.range (n + 1)).map (backoffAt b) := by
      rw [List.append_assoc]
      congr 1
      rw [List.range_succ_eq_map, List.map_cons, List.map_map,
        List.singleton_append]
      congr 1
      apply List.map_congr_left
      intro i _
      show backoffAt (min (b * 2) 16) i = backoffAt b (i + 1)
      exact (backoffAt_shift b i).symm
    rw [e1, e2, e3]

/-- C5: a rate-limited (HTTP 429) cabin query is retried after sleeping a
backoff delay that starts at the configured initial value and doubles each
retry capped at 16 seconds, for at most the configured number of retries;
exhausting the retries propagates the rate-limit error, any non-429
failure propagates immediately with no further attempt, and a propagated
failure makes the whole range run an error producing no rows for the
failing day or any later day. -/
theorem C5_retry_backoff :
    (∀ (search : Nat → SearchOutcome) (retries : Nat) (b0 : ℚ) (j : Nat) (p : JVal),
       j ≤ retries →
       (∀ i, i < j → search i = SearchOutcome.httpError (some 429)) →
       search j = SearchOutcome.ok p →
       runCabinQuery search retries 0 b0 []
         = ⟨.ok p, (List.range j).map (backoffAt b0), j + 1⟩) ∧
    (∀ (search : Nat → SearchOutcome) (retries : Nat) (b0 : ℚ),
       (∀ i, i ≤ retries → search i = SearchOutcome.httpError (some 429)) →
       runCabinQuery search retries 0 b0 []
         = ⟨.error (.http (some 429)), (List.range retries).map (backoffAt b0),
            retries + 1⟩) ∧
    (∀ (search : Nat → SearchOutcome) (retries : Nat) (b0 : ℚ) (j : Nat)
        (status : Option Int),
       j ≤ retries →
       (∀ i, i < j → search i = SearchOutcome.httpError (some 429)) →
       search j = SearchOutcome.httpError status → status ≠ some 429 →
       runCabinQuery search retries 0 b0 []
         = ⟨.error (.http status), (List.range j).map (backoffAt b0), j + 1⟩) ∧
    (∀ (search : Nat → SearchOutcome) (retries : Nat) (b0 : ℚ) (j : Nat)
        (msg : String),
       j ≤ retries →
       (∀ i, i < j → search i = SearchOutcome.httpError (some 429)) →
       search j = SearchOutcome.otherError msg →
       runCabinQuery search retries 0 b0 []
         = ⟨.error (.other msg), (List.range j).map (backoffAt b0), j + 1⟩) ∧
    (∀ (fetch : JVal → Except String JVal) (opts : Opts)
        (search : Int → String → Nat → SearchOutcome) (retries : Nat) (b0 : ℚ)
        (total : Nat) (day : Int) (idx : Nat) (rest : List (Int × Nat))
        (e : QueryError),
       (runDay ⟨fetch, opts, day⟩ (search day) retries b0).rows = .error e →
       (runDays fetch opts search retries b0 total ((day, idx) :: rest)).result
         = .error (.query e) ∧
       (runDays fetch opts search retries b0 total ((day, idx) :: rest)).emitted
         = []) := by
  refine ⟨?_, ?_, ?_, ?_, ?_⟩
  · intro search retries b0 j p hle h429 hok
    rw [runCabinQuery_skip search retries j 0 b0 [] (fun i hi => by simpa using h429 i hi)
      (by omega)]
    rw [runCabinQuery_unfold search retries (0 + j) (backoffAt b0 j) _ (by omega)]
    simp only [Nat.zero_add, hok, List.nil_append]
  · intro search retries b0 h429
    rw [runCabinQuery_skip search retries retries 0 b0 []
      (fun i hi => by simpa using h429 i (le_of_lt hi)) (by omega)]
    rw [runCabinQuery_unfold search retries (0 + retries) (backoffAt b0 retries) _
      (by omega)]
    simp only [Nat.zero_add, h429 retries (le_refl retries), List.nil_append]
    rw [if_neg]
    intro hcontra
    omega
  · intro search retries b0 j status hle h429 herr hne
    rw [runCabinQuery_skip search retries j 0 b0 [] (fun i hi => by simpa using h429 i hi)
      (by omega)]
    rw [runCabinQuery_unfold search retries (0 + j) (backoffAt b0 j) _ (by omega)]
    simp only [Nat.zero_add, herr, List.nil_append]
    rw [if_neg]
    intro hcontra
    exact hne hcontra.1
  · intro search retries b0 j msg hle h429 herr
    rw [runCabinQuery_skip search retries j 0 b0 [] (fun i hi => by simpa using h429 i hi)
      (by omega)]
    rw [runCabinQuery_unfold search retries (0 + j) (backoffAt b0 j) _ (by omega)]
    simp only [Nat.zero_add, herr, List.nil_append]
  · intro fetch opts search retries b0 total day idx rest e herr
    refine ⟨?_, ?_⟩ <;> simp only [runDays, herr]

/-- A search oracle that is rate limited on the first attempt only. -/
def wSearchQ : Nat → SearchOutcome :=
  fun i => if i = 0 then .httpError (some 429) else .ok (.obj [])

theorem C5_witness :
    runCabinQuery wSearchQ 5 0 1 []
      = ⟨.ok (.obj []), (List.range 1).map (backoffAt 1), 2⟩ :=
  C5_retry_backoff.1 wSearchQ 5 1 1 (.obj [])
    (by omega)
    (fun i hi => by
      have h0 : i = 0 := by omega
      subst h0
      rfl)
    (by rfl)

/-- C8: when a day of the range fails (retries exhausted or any other
query failure), the whole run's result is that error, the rows appended
before the failure are exactly those of the successful prior days — a run
over just those days returns them — and no callback fires for any later
day: the failing day is the last one started. -/
theorem C8_abort (fetch : JVal → Except String JVal) (opts : Opts)
    (search : Int → String → Nat → SearchOutcome) (retries : Nat) (b0 : ℚ)
    (total : Nat) (days1 : List (Int × Nat)) (day : Int) (idx : Nat)
    (rest : List (Int × Nat)) (e : QueryError)
    (herr : (runDay ⟨fetch, opts, day⟩ (search day) retries b0).rows = .error e) :
    (∀ di ∈ days1, ∃ rs,
        (runDay ⟨fetch, opts, di.1⟩ (search di.1) retries b0).rows = .ok rs) →
    (runDays fetch opts search retries b0 total (days1 ++ (day, idx) :: rest)).result
        = .error (.query e) ∧
    (runDays fetch opts search retries b0 total (days1 ++ (day, idx) :: rest)).emitted
        = (runDays fetch opts search retries b0 total days1).emitted ∧
    (runDays fetch opts search retries b0 total days1).result
        = .ok ((runDays fetch opts search retries b0 total days1).emitted) ∧
    (runDays fetch opts search retries b0 total (days1 ++ (day, idx) :: rest)).callbacks
        = (runDays fetch opts search retries b0 total days1).callbacks
            ++ [(day, idx, total)] := by
  induction days1 with
  | nil =>
    intro _
    refine ⟨?_, ?_, ?_, ?_⟩ <;> simp [runDays, herr]
  | cons hd tl ih =>
    obtain ⟨d0, i0⟩ := hd
    intro hsucc
    obtain ⟨rs, hrs⟩ := hsucc (d0, i0) (List.mem_cons_self _ _)
    obtain ⟨k1, k2, k3, k4⟩ := ih (fun di hdi => hsucc di (List.mem_cons_of_mem _ hdi))
    refine ⟨?_, ?_, ?_, ?_⟩
    · simp only [List.cons_append, runDays, hrs, List.append_eq, k1]
      rfl
    · simp only [List.cons_append, runDays, hrs, List.append_eq, k2]
    · simp only [runDays, hrs, List.append_eq, k3]
      rfl
    · simp only [List.cons_append, runDays, hrs, List.append_eq, k4]

theorem rowKeyLE_total : ∀ x y : (String × String) × Row, rowKeyLE x y ∨ rowKeyLE y x := by
  intro x y
  rcases lt_trichotomy x.2.airlineCode y.2.airlineCode with h | h | h
  · exact Or.inl (Or.inl h)
  · rcases le_total x.2.departureAt y.2.departureAt with h2 | h2
    · exact Or.inl (Or.inr ⟨h, h2⟩)
    · exact Or.inr (Or.inr ⟨h.symm, h2⟩)
  · exact Or.inr (Or.inl h)

instance rowKeyLE.isTotal : IsTotal ((String × String) × Row) rowKeyLE :=
  ⟨rowKeyLE_total⟩

instance rowKeyLE.isTrans : IsTrans ((String × String) × Row) rowKeyLE := by
  constructor
  intro x y z hxy hyz
  rcases hxy with h1 | ⟨h1, h1d⟩ <;> rcases hyz with h2 | ⟨h2, h2d⟩
  · exact Or.inl (lt_trans h1 h2)
  · exact Or.inl (by rw [← h2]; exact h1)
  · exact Or.inl (by rw [h1]; exact h2)
  · exact Or.inr ⟨h1.trans h2, le_trans h1d h2d⟩

theorem sortDayRows_sorted (pf : List ((String × String) × Row)) :
    (sortDayRows pf).Pairwise (fun r1 r2 => r1.airlineCode < r2.airlineCode ∨
      (r1.airlineCode = r2.airlineCode ∧ r1.departureAt ≤ r2.departureAt)) := by
  have hs : List.Sorted rowKeyLE (List.insertionSort rowKeyLE pf) :=
    List.sorted_insertionSort rowKeyLE pf
  exact List.Pairwise.map _ (fun a b hab => hab) hs

/-- C9: every successfully produced day row list is sorted by airline code
ascending, then departure timestamp ascending, under string comparison. -/
theorem C9_rows_sorted (ctx : Ctx) (search : String → Nat → SearchOutcome)
    (retries : Nat) (b0 : ℚ) (rows : List Row)
    (h : (runDay ctx search retries b0).rows = .ok rows) :
    rows.Pairwise (fun r1 r2 => r1.airlineCode < r2.airlineCode ∨
      (r1.airlineCode = r2.airlineCode ∧ r1.departureAt ≤ r2.departureAt)) := by
  simp only [runDay] at h
  cases hst : (runCabins ctx search retries b0 _CABINS initDayState).state with
  | error e =>
    rw [hst] at h
    simp [Except.map] at h
  | ok st =>
    rw [hst] at h
    simp only [Except.map] at h
    have heq := Except.ok.inj h
    rw [← heq]
    exact sortDayRows_sorted st.per_flight

def wFetch : JVal → Except String JVal := fun _ => .error "x"

def wOpts : Opts := ⟨false, false⟩

/-- A range oracle: day 1 fails with a non-HTTP error, other days return
an empty payload. -/
def wSearchR : Int → String → Nat → SearchOutcome :=
  fun day _ _ => if day = 1 then .otherError "boom" else .ok (.obj [])

theorem C8_witness :
    (runDays wFetch wOpts wSearchR 5 1 2 ([(0, 0)] ++ (1, 1) :: [])).result
        = .error (.query (.other "boom")) ∧
    (runDays wFetch wOpts wSearchR 5 1 2 ([(0, 0)] ++ (1, 1) :: [])).emitted
        = (runDays wFetch wOpts wSearchR 5 1 2 [(0, 0)]).emitted ∧
    (runDays wFetch wOpts wSearchR 5 1 2 [(0, 0)]).result
        = .ok ((runDays wFetch wOpts wSearchR 5 1 2 [(0, 0)]).emitted) ∧
    (runDays wFetch wOpts wSearchR 5 1 2 ([(0, 0)] ++ (1, 1) :: [])).callbacks
        = (runDays wFetch wOpts wSearchR 5 1 2 [(0, 0)]).callbacks ++ [(1, 1, 2)] :=
  C8_abort wFetch wOpts wSearchR 5 1 2 [(0, 0)] 1 1 [] (.other "boom") (by rfl)
    (fun di hdi => by
      have hd : di = (0, 0) := by simpa using hdi
      subst hd
      exact ⟨[], by rfl⟩)

/-- A payload carrying one direct offer. -/
def wPayload : JVal := .obj [("data", .arr [econOffer])]

def wSearchOK : String → Nat → SearchOutcome := fun _ _ => .ok wPayload

/-- The row econOffer yields when it is returned by all four cabin
queries. -/
def wRowAll : Row :=
  { wRow with premiumEconomyMax := some 5
              businessMax := some 5
              firstMax := some 5
              premiumEconomySeen := true
              businessSeen := true
              firstSeen := true }

theorem C9_witness :
    [wRowAll].Pairwise (fun r1 r2 => r1.airlineCode < r2.airlineCode ∨
      (r1.airlineCode = r2.airlineCode ∧ r1.departureAt ≤ r2.departureAt)) :=
  C9_rows_sorted plainCtx wSearchOK 5 1 [wRowAll] (by rfl)

theorem runDays_callbacks_of_ok (fetch : JVal → Except String JVal) (opts : Opts)
    (search : Int → String → Nat → SearchOutcome) (retries : Nat) (b0 : ℚ)
    (total : Nat) :
    ∀ (daysL : List (Int × Nat)) (rows : List Row),
      (runDays fetch opts search retries b0 total daysL).result = .ok rows →
      (runDays fetch opts search retries b0 total daysL).callbacks
        = daysL.map (fun di => (di.1, di.2, total)) := by
  intro daysL
  induction daysL with
  | nil => intro rows h; rfl
  | cons hd tl ih =>
    obtain ⟨d0, i0⟩ := hd
    intro rows h
    simp only [runDays] at h ⊢
    cases hd0 : (runDay ⟨fetch, opts, d0⟩ (search d0) retries b0).rows with
    | error e =>
      rw [hd0] at h
      simp at h
    | ok rs =>
      rw [hd0] at h
      have h2 : Except.map (fun rs2 => rs ++ rs2)
          (runDays fetch opts search retries b0 total tl).result = Except.ok rows := h
      cases hres : (runDays fetch opts search retries b0 total tl).result with
      | error e2 =>
        rw [hres] at h2
        simp [Except.map] at h2
      | ok rs2 =>
        show (d0, i0, total) :: (runDays fetch opts search retries b0 total tl).callbacks
            = ((d0, i0) :: tl).map (fun di => (di.1, di.2, total))
        rw [List.map_cons, ih rs2 hres]

/-- C10: a reversed range makes the driver raise ValueError before any
search call, progress callback or row; an ordered range enumerates exactly
(end - start) + 1 days, strictly ascending, and a fully successful run
invokes the progress callback once per day in that order. -/
theorem C10_date_validation (fetch : JVal → Except String JVal) (opts : Opts)
    (search : Int → String → Nat → SearchOutcome) (retries : Nat) (b0 : ℚ)
    (s e : Int) :
    (e < s →
      find_direct_flight_max_bookable_seats_by_cabin fetch opts search retries b0 s e
        = ⟨.error (.valueError "END_DATE must be >= START_DATE"), [], [], []⟩) ∧
    (s ≤ e →
      (daysList s e).length = (e - s).toNat + 1 ∧
      (daysList s e).Pairwise (fun d1 d2 => d1.1 < d2.1) ∧
      find_direct_flight_max_bookable_seats_by_cabin fetch opts search retries b0 s e
        = runDays fetch opts search retries b0 ((e - s).toNat + 1) (daysList s e) ∧
      (∀ rows,
        (find_direct_flight_max_bookable_seats_by_cabin fetch opts search
            retries b0 s e).result = .ok rows →
        (find_direct_flight_max_bookable_seats_by_cabin fetch opts search
            retries b0 s e).callbacks
          = (daysList s e).map (fun di => (di.1, di.2, (e - s).toNat + 1)))) := by
  constructor
  · intro hlt
    simp [find_direct_flight_max_bookable_seats_by_cabin, hlt]
  · intro hle
    have hnot : ¬ e < s := not_lt.mpr hle
    have hfd : find_direct_flight_max_bookable_seats_by_cabin fetch opts search
        retries b0 s e
        = runDays fetch opts search retries b0 ((e - s).toNat + 1) (daysList s e) := by
      simp [find_direct_flight_max_bookable_seats_by_cabin, hnot]
    refine ⟨?_, ?_, hfd, ?_⟩
    · simp [daysList]
    · unfold daysList
      rw [List.pairwise_map]
      have hp : (List.range ((e - s).toNat + 1)).Pairwise (· < ·) :=
        List.pairwise_lt_range _
      exact hp.imp (fun hab => by simp only [Int.ofNat_eq_natCast]; omega)
    · intro rows hok
      rw [hfd] at hok ⊢
      exact runDays_callbacks_of_ok fetch opts search retries b0
        ((e - s).toNat + 1) (daysList s e) rows hok

theorem C10_witness :
    find_direct_flight_max_bookable_seats_by_cabin wFetch wOpts wSearchR 5 1 5 3
      = ⟨.error (.valueError "END_DATE must be >= START_DATE"), [], [], []⟩ :=
  (C10_date_validation wFetch wOpts wSearchR 5 1 5 3).1 (by decide)
